import Mathlib

/-!
Verification development for the xml-helper-ts repository: a shallow
embedding of its XML parser (`src/xml-parser.ts`), XSD schema builder
(`XsdParser`), and validator (`XmlValidator`), with theorems settling the
stated behavioural properties.

Modelling conventions:
* A JavaScript/TypeScript string is modelled as `List Char` (`JStr`);
  JS one-character accesses such as `this.xml[i] || ''` become `charAt`,
  which returns a possibly empty `JStr`.
* A `Record<string, T>` object literal is modelled as an insertion-ordered
  association list with JS assignment semantics (`recordSet` overwrites in
  place, `Object.entries` is the list itself).  The prototype chain of JS
  objects is not modelled.
* JS numbers are modelled by `JsNum` (NaN, the two infinities, and exact
  rationals); IEEE-754 rounding is not modelled.
* A thrown JS exception is an explicit error value (`VRes.thrown`,
  `PRes.err`); divergence of a JS loop is `PRes.div` / fuel exhaustion.
-/

/-- A JavaScript string, modelled as its list of characters. -/
abbrev JStr := List Char

/-- An apostrophe character, used when rebuilding the source's message
strings such as `Element 'x' ...`. -/
def sqc : JStr := [Char.ofNat 39]

/-- Models the JS one-character string access `str[i] || ''`:
the character at index `i` as a string, or the empty string. -/
def charAt (s : JStr) (i : Nat) : JStr :=
  match s[i]? with
  | some c => [c]
  | none => []

/-- Models `a || b` for JS strings: `a` when non-empty (truthy), else `b`. -/
def truthyOr (a b : JStr) : JStr :=
  if a = [] then b else a

/-- Models `a || b` where `a` is an optional JS string
(`undefined` and `''` are falsy). -/
def truthyOrOpt (a : Option JStr) (b : JStr) : JStr :=
  match a with
  | some v => truthyOr v b
  | none => b

/-- Models `String.prototype.startsWith`. -/
def jsStartsWith : JStr → JStr → Bool
  | _, [] => true
  | [], _ :: _ => false
  | c :: s, d :: p => c = d && jsStartsWith s p

/-- Models `String.prototype.endsWith`. -/
def jsEndsWith (s p : JStr) : Bool :=
  jsStartsWith s.reverse p.reverse

/-- The characters JS `String.prototype.trim` removes (WhiteSpace and
LineTerminator code points; the common ones are modelled). -/
def jsTrimmable (c : Char) : Bool :=
  c = ' ' || c = '\t' || c = '\n' || c = '\r' ||
  c = Char.ofNat 11 || c = Char.ofNat 12 || c = Char.ofNat 0xA0 ||
  c = Char.ofNat 0x2028 || c = Char.ofNat 0x2029 || c = Char.ofNat 0xFEFF

/-- Models `String.prototype.trim`. -/
def jsTrim (s : JStr) : JStr :=
  ((s.dropWhile jsTrimmable).reverse.dropWhile jsTrimmable).reverse

/-- Models `str.substring(a, b)` for `a ≤ b`. -/
def jsSubstring (s : JStr) (a b : Nat) : JStr :=
  (s.take b).drop a

/-- Property read `record[key]` on a JS object modelled as an
insertion-ordered association list (no prototype chain). -/
def recordGet {α : Type} (r : List (JStr × α)) (k : JStr) : Option α :=
  (r.find? (fun p => p.1 = k)).map (fun p => p.2)

/-- Property write `record[key] = v`: overwrite in place if the key exists
(keeping its insertion position), else append. -/
def recordSet {α : Type} (r : List (JStr × α)) (k : JStr) (v : α) :
    List (JStr × α) :=
  match r with
  | [] => [(k, v)]
  | (k', v') :: rest =>
    if k' = k then (k', v) :: rest else (k', v') :: recordSet rest k v

/-- A JS number: NaN, ±Infinity, or a finite value (modelled as an exact
rational; IEEE-754 rounding is not modelled). -/
inductive JsNum : Type where
  | nan : JsNum
  | posInf : JsNum
  | negInf : JsNum
  | rat (q : ℚ) : JsNum
deriving DecidableEq

/-- JS `<` on numbers (false whenever either side is NaN). -/
def JsNum.ltb : JsNum → JsNum → Bool
  | .nan, _ => false
  | _, .nan => false
  | .negInf, .negInf => false
  | .negInf, _ => true
  | _, .negInf => false
  | .posInf, _ => false
  | .rat _, .posInf => true
  | .rat a, .rat b => a < b

/-- JS `>` on numbers. -/
def JsNum.gtb (a b : JsNum) : Bool := JsNum.ltb b a

/-- JS `isNaN` on an already-converted number. -/
def JsNum.isNaN : JsNum → Bool
  | .nan => true
  | _ => false

/-- Numeric value of a digit character in radix ≤ 36, if any. -/
def digitVal (radix : Nat) (c : Char) : Option Nat :=
  let v :=
    if '0' ≤ c ∧ c ≤ '9' then some (c.toNat - '0'.toNat)
    else if 'a' ≤ c ∧ c ≤ 'z' then some (c.toNat - 'a'.toNat + 10)
    else if 'A' ≤ c ∧ c ≤ 'Z' then some (c.toNat - 'A'.toNat + 10)
    else none
  match v with
  | some n => if n < radix then some n else none
  | none => none

/-- Reads the longest digit prefix in the given radix; returns its value,
the number of digits read, and the rest. -/
def readDigits (radix : Nat) : JStr → Nat → Nat → Nat × Nat × JStr
  | [], acc, cnt => (acc, cnt, [])
  | c :: rest, acc, cnt =>
    match digitVal radix c with
    | some d => readDigits radix rest (acc * radix + d) (cnt + 1)
    | none => (acc, cnt, c :: rest)

/-- Models JS `parseInt(s, radix)` (radix 10 or 16 in this codebase):
skip leading whitespace, optional sign, `0x` prefix handling for radix
16 / unspecified radix 10 input without it, longest digit prefix; NaN when
no digit is read.  For the call sites in this repository only radix 10
(with `0x`-prefix promotion to 16, as in `parseInt(s)`) and radix 16 occur. -/
def jsParseIntWith (hexPromote : Bool) (radix : Nat) (s : JStr) : JsNum :=
  let t := s.dropWhile jsTrimmable
  let (sign, t) : Int × JStr :=
    match t with
    | '-' :: r => (-1, r)
    | '+' :: r => (1, r)
    | r => (1, r)
  let (radix, t) : Nat × JStr :=
    if (jsStartsWith t ('0' :: 'x' :: []) || jsStartsWith t ('0' :: 'X' :: [])) &&
        (radix = 16 || hexPromote) then
      (16, t.drop 2)
    else (radix, t)
  let (v, cnt, _) := readDigits radix t 0 0
  if cnt = 0 then .nan else .rat (sign * (v : Int) : Int)

/-- Models `parseInt(s)` with no explicit radix. -/
def jsParseInt (s : JStr) : JsNum := jsParseIntWith true 10 s

/-- Models `parseInt(s, radix)` with an explicit radix. -/
def jsParseIntRadix (s : JStr) (radix : Nat) : JsNum :=
  jsParseIntWith false radix s

/-- Models the JS `Number(string)` conversion (StringToNumber): trimmed
empty string is `0`; signed decimal literals with optional fraction and
exponent; `Infinity`; `0x`/`0o`/`0b` integer literals; anything else NaN. -/
def jsNumber (s : JStr) : JsNum :=
  let t := jsTrim s
  if t = [] then .rat 0
  else
    let (sign, t1) : Int × JStr :=
      match t with
      | '-' :: r => (-1, r)
      | '+' :: r => (1, r)
      | r => (1, r)
    if t1 = "Infinity".data then (if sign = 1 then .posInf else .negInf)
    else if (jsStartsWith t ('0' :: 'x' :: []) || jsStartsWith t ('0' :: 'X' :: [])) then
      let (v, cnt, rest) := readDigits 16 (t.drop 2) 0 0
      if cnt ≠ 0 ∧ rest = [] then .rat (v : ℚ) else .nan
    else if (jsStartsWith t ('0' :: 'o' :: []) || jsStartsWith t ('0' :: 'O' :: [])) then
      let (v, cnt, rest) := readDigits 8 (t.drop 2) 0 0
      if cnt ≠ 0 ∧ rest = [] then .rat (v : ℚ) else .nan
    else if (jsStartsWith t ('0' :: 'b' :: []) || jsStartsWith t ('0' :: 'B' :: [])) then
      let (v, cnt, rest) := readDigits 2 (t.drop 2) 0 0
      if cnt ≠ 0 ∧ rest = [] then .rat (v : ℚ) else .nan
    else
      -- decimal literal: digits [. digits] [e|E [sign] digits], at least one
      -- digit in the mantissa
      let (ip, ipCnt, r1) := readDigits 10 t1 0 0
      let (fracNum, fracCnt, r2) : Nat × Nat × JStr :=
        match r1 with
        | '.' :: r => readDigits 10 r 0 0
        | r => (0, 0, r)
      let hadDot : Bool := match r1 with | '.' :: _ => true | _ => false
      if ipCnt = 0 ∧ fracCnt = 0 then .nan
      else
        let mant : ℚ := (ip : ℚ) + (fracNum : ℚ) / ((10 : ℚ) ^ fracCnt)
        let afterFrac := if hadDot then r2 else r1
        match afterFrac with
        | [] => .rat (sign * mant)
        | e :: r3 =>
          if e = 'e' ∨ e = 'E' then
            let (esign, r4) : Int × JStr :=
              match r3 with
              | '-' :: r => (-1, r)
              | '+' :: r => (1, r)
              | r => (1, r)
            let (ev, eCnt, r5) := readDigits 10 r4 0 0
            if eCnt = 0 ∨ r5 ≠ [] then .nan
            else
              let scaled : ℚ :=
                if esign = 1 then mant * ((10 : ℚ) ^ ev) else mant / ((10 : ℚ) ^ ev)
              .rat (sign * scaled)
          else .nan

/-- Decimal digits of a natural number, as characters. -/
def natDigits (n : Nat) : JStr := (Nat.repr n).data

/-- Fractional decimal digits of `num / den` (`num < den`), emitted by long
division; `fuel` caps the expansion (the numbers arising here come from
decimal literals, whose expansions terminate well within it). -/
def fracDigits : Nat → Nat → Nat → JStr
  | _, _, 0 => []
  | num, den, fuel + 1 =>
    if num = 0 ∨ den = 0 then []
    else
      let d := num * 10 / den
      let r := num * 10 % den
      Char.ofNat ('0'.toNat + d) :: fracDigits r den fuel

/-- Models JS number-to-string conversion on the values arising in this
codebase (integers and finite decimal fractions; exponent notation for
extreme magnitudes is not modelled). -/
def jsNumToString : JsNum → JStr
  | .nan => "NaN".data
  | .posInf => "Infinity".data
  | .negInf => "-Infinity".data
  | .rat q =>
    let signStr : JStr := if q < 0 then ['-'] else []
    let n := q.num.natAbs
    let d := q.den
    let ipart := n / d
    let rest := n % d
    if rest = 0 then signStr ++ natDigits ipart
    else signStr ++ natDigits ipart ++ ['.'] ++ fracDigits rest d 64

/-- A `string | number` union value (the type of `XsdRestriction.value`). -/
inductive JsVal : Type where
  | str (s : JStr) : JsVal
  | num (n : JsNum) : JsVal
deriving DecidableEq

/-- Models `Number(v)` on a `string | number` value. -/
def JsVal.toNum : JsVal → JsNum
  | .str s => jsNumber s
  | .num n => n

/-- Models `String(v)` on a `string | number` value. -/
def JsVal.toStr : JsVal → JStr
  | .str s => s
  | .num n => jsNumToString n

/-! ### A model of the JS `RegExp` library calls used by the validator

The validator calls `new RegExp(String(value))` and `regex.test(value)`.
These are modelled by `compileRegex` (pattern-syntax parser, `none` models
the `SyntaxError` thrown by the `RegExp` constructor) and `jsTest`
(unanchored search: does any substring match).  The model covers the core
pattern syntax (literals, escapes, `.`, character classes, groups,
alternation and the greedy quantifiers); assertions (`^`, `$`, `\b`),
backreferences and the unicode extensions are conservatively rejected. -/

/-- One item of a regex character class. -/
inductive ClsItem : Type where
  | single (c : Char) : ClsItem
  | range (lo hi : Char) : ClsItem
  | digit : ClsItem
  | word : ClsItem
  | space : ClsItem
  | notDigit : ClsItem
  | notWord : ClsItem
  | notSpace : ClsItem
deriving DecidableEq

/-- `\d`-class membership. -/
def isDigitCh (c : Char) : Bool := '0' ≤ c && c ≤ '9'

/-- `\w`-class membership. -/
def isWordCh (c : Char) : Bool :=
  ('a' ≤ c && c ≤ 'z') || ('A' ≤ c && c ≤ 'Z') || isDigitCh c || c = '_'

/-- `\s`-class membership (the common members). -/
def isSpaceCh (c : Char) : Bool :=
  jsTrimmable c

/-- Whether a character matches one class item. -/
def ClsItem.matches : ClsItem → Char → Bool
  | .single d, c => c = d
  | .range lo hi, c => lo ≤ c && c ≤ hi
  | .digit, c => isDigitCh c
  | .word, c => isWordCh c
  | .space, c => isSpaceCh c
  | .notDigit, c => !isDigitCh c
  | .notWord, c => !isWordCh c
  | .notSpace, c => !isSpaceCh c

/-- Regular expression abstract syntax (quantifiers are normalised at
compile time into `star` and bounded unfoldings). -/
inductive RE : Type where
  | fail : RE
  | eps : RE
  | lit (c : Char) : RE
  | dot : RE
  | cls (neg : Bool) (items : List ClsItem) : RE
  | cat (a b : RE) : RE
  | alt (a b : RE) : RE
  | star (a : RE) : RE
deriving DecidableEq

/-- Whether the regex matches the empty string. -/
def RE.nullable : RE → Bool
  | .fail => false
  | .eps => true
  | .lit _ => false
  | .dot => false
  | .cls _ _ => false
  | .cat a b => a.nullable && b.nullable
  | .alt a b => a.nullable || b.nullable
  | .star _ => true

/-- JS `.` matches anything but a line terminator. -/
def isLineTerminator (c : Char) : Bool :=
  c = '\n' || c = '\r' || c = Char.ofNat 0x2028 || c = Char.ofNat 0x2029

/-- Brzozowski derivative of a regex by one character. -/
def RE.deriv : RE → Char → RE
  | .fail, _ => .fail
  | .eps, _ => .fail
  | .lit d, c => if c = d then .eps else .fail
  | .dot, c => if isLineTerminator c then .fail else .eps
  | .cls neg items, c =>
    if (items.any (fun i => i.matches c)) ≠ neg then .eps else .fail
  | .cat a b, c =>
    if a.nullable then .alt (.cat (a.deriv c) b) (b.deriv c)
    else .cat (a.deriv c) b
  | .alt a b, c => .alt (a.deriv c) (b.deriv c)
  | .star a, c => .cat (a.deriv c) (.star a)

/-- Whether the regex matches the whole string. -/
def reMatchesWhole (re : RE) (s : JStr) : Bool :=
  (s.foldl RE.deriv re).nullable

/-- Whether the regex matches some prefix of the string. -/
def reMatchesSomePrefix : RE → JStr → Bool
  | re, [] => re.nullable
  | re, c :: rest => re.nullable || reMatchesSomePrefix (re.deriv c) rest

/-- All suffixes of a string, longest first. -/
def tailsOf : JStr → List JStr
  | [] => [[]]
  | c :: rest => (c :: rest) :: tailsOf rest

/-- Models `regex.test(value)` for a pattern without anchors: true iff the
regex matches some substring of the value. -/
def jsTest (re : RE) (s : JStr) : Bool :=
  (tailsOf s).any (reMatchesSomePrefix re)

/-- `n`-fold concatenation of a regex. -/
def rePow (a : RE) : Nat → RE
  | 0 => .eps
  | n + 1 => .cat a (rePow a n)

/-- Up to `n` copies of a regex. -/
def reUpTo (a : RE) : Nat → RE
  | 0 => .eps
  | n + 1 => .alt .eps (.cat a (reUpTo a n))

/-- `a{lo,hi}` / `a{lo,}` / `a*` / `a+` / `a?` normalised. -/
def reRep (a : RE) (lo : Nat) (hi : Option Nat) : RE :=
  match hi with
  | none => .cat (rePow a lo) (.star a)
  | some h => .cat (rePow a lo) (reUpTo a (h - lo))

/-- Escape sequences usable both inside and outside character classes:
class shorthands, control escapes, and escaped literals.  Assertion and
backreference escapes are rejected (`none`). -/
def parseEscapeItem (c : Char) : Option ClsItem :=
  if c = 'd' then some .digit
  else if c = 'D' then some .notDigit
  else if c = 'w' then some .word
  else if c = 'W' then some .notWord
  else if c = 's' then some .space
  else if c = 'S' then some .notSpace
  else if c = 'n' then some (.single '\n')
  else if c = 't' then some (.single '\t')
  else if c = 'r' then some (.single '\r')
  else if c = 'f' then some (.single (Char.ofNat 12))
  else if c = 'v' then some (.single (Char.ofNat 11))
  else if c = '0' then some (.single (Char.ofNat 0))
  else if c = 'b' ∨ c = 'B' ∨ c = 'k' ∨ c = 'p' ∨ c = 'P' ∨
          ('1' ≤ c ∧ c ≤ '9') ∨ c = 'u' ∨ c = 'x' ∨ c = 'c' then none
  else some (.single c)

/-- Parses the items of a character class up to the closing `]`;
returns the items and the rest after `]`, or `none` for an unterminated
or malformed class (the `SyntaxError` case). -/
def parseClassItems : JStr → Option (List ClsItem × JStr)
  | [] => none
  | ']' :: rest => some ([], rest)
  | '\\' :: [] => none
  | '\\' :: e :: rest => do
    let item ← parseEscapeItem e
    -- a shorthand class cannot be a range endpoint; a `-` after it is literal
    let (items, rest') ← parseClassItems rest
    pure (item :: items, rest')
  | c :: '-' :: ']' :: rest => do
    -- trailing `-` is a literal
    pure ([ClsItem.single c, ClsItem.single '-'], rest)
  | c :: '-' :: '\\' :: rest =>
    -- ranges with escaped endpoints: only literal escapes are valid endpoints
    match rest with
    | [] => none
    | e :: rest' => do
      match parseEscapeItem e with
      | some (ClsItem.single hi) =>
        if c.toNat ≤ hi.toNat then
          let (items, rest'') ← parseClassItems rest'
          pure (ClsItem.range c hi :: items, rest'')
        else none
      | _ => none
  | c :: '-' :: hi :: rest => do
    if c.toNat ≤ hi.toNat then
      let (items, rest') ← parseClassItems rest
      pure (ClsItem.range c hi :: items, rest')
    else none
  | c :: rest => do
    let (items, rest') ← parseClassItems rest
    pure (ClsItem.single c :: items, rest')

/-- Parses a `{...}` quantifier body after the opening brace; returns
`(lo, hi, rest)` on success (`none` means the brace is a literal `{`). -/
def parseBraceQuant (s : JStr) : Option (Nat × Option Nat × JStr) :=
  let (lo, loCnt, r1) := readDigits 10 s 0 0
  if loCnt = 0 then none
  else
    match r1 with
    | '}' :: rest => some (lo, some lo, rest)
    | ',' :: '}' :: rest => some (lo, none, rest)
    | ',' :: r2 =>
      let (hi, hiCnt, r3) := readDigits 10 r2 0 0
      if hiCnt = 0 then none
      else
        match r3 with
        | '}' :: rest => if lo ≤ hi then some (lo, some hi, rest) else none
        | _ => none
    | _ => none

/-- After parsing one quantifier: consume an optional lazy `?` marker
(laziness does not change the matched language) and reject a stacked
second quantifier (the `SyntaxError: nothing to repeat` case). -/
def lazyThenGuard (a : RE) (s : JStr) : Option (RE × JStr) :=
  let s' := match s with
    | '?' :: r => r
    | r => r
  match s' with
  | '*' :: _ => none
  | '+' :: _ => none
  | '?' :: _ => none
  | '{' :: r2 =>
    match parseBraceQuant r2 with
    | some _ => none
    | none => some (a, s')
  | _ => some (a, s')

/-- Applies an optional postfix quantifier to a parsed atom. -/
def parseQuantSuffix (a : RE) (s : JStr) : Option (RE × JStr) :=
  match s with
  | '*' :: r => lazyThenGuard (RE.star a) r
  | '+' :: r => lazyThenGuard (reRep a 1 none) r
  | '?' :: r => lazyThenGuard (reUpTo a 1) r
  | '{' :: r =>
    match parseBraceQuant r with
    | some (lo, hi, rest) => lazyThenGuard (reRep a lo hi) rest
    | none => some (a, '{' :: r)
  | r => some (a, r)

mutual

/-- Parses a concatenation of quantified atoms, stopping at `|`, `)` or
the end of the pattern; `none` models a `SyntaxError`. -/
def parseSeqRE (fuel : Nat) (acc : RE) (s : JStr) : Option (RE × JStr) :=
  match fuel with
  | 0 => none
  | fuel + 1 =>
    match s with
    | [] => some (acc, [])
    | ')' :: _ => some (acc, s)
    | '|' :: _ => some (acc, s)
    | '^' :: _ => none
    | '$' :: _ => none
    | '*' :: _ => none
    | '+' :: _ => none
    | '?' :: _ => none
    | '(' :: r =>
      let inner? : Option JStr :=
        match r with
        | '?' :: ':' :: r2 => some r2
        | '?' :: _ => none
        | r2 => some r2
      match inner? with
      | none => none
      | some r2 =>
        match parseAltRE fuel r2 with
        | none => none
        | some (g, s3) =>
          match s3 with
          | ')' :: rest =>
            match parseQuantSuffix g rest with
            | none => none
            | some (g', rest') => parseSeqRE fuel (.cat acc g') rest'
          | _ => none
    | '[' :: r =>
      let (neg, r1) : Bool × JStr :=
        match r with
        | '^' :: r2 => (true, r2)
        | r2 => (false, r2)
      match parseClassItems r1 with
      | none => none
      | some (items, rest) =>
        match parseQuantSuffix (.cls neg items) rest with
        | none => none
        | some (a', rest') => parseSeqRE fuel (.cat acc a') rest'
    | '\\' :: [] => none
    | '\\' :: e :: r =>
      match parseEscapeItem e with
      | none => none
      | some (ClsItem.single c) =>
        match parseQuantSuffix (.lit c) r with
        | none => none
        | some (a', rest') => parseSeqRE fuel (.cat acc a') rest'
      | some item =>
        match parseQuantSuffix (.cls false [item]) r with
        | none => none
        | some (a', rest') => parseSeqRE fuel (.cat acc a') rest'
    | '.' :: r =>
      match parseQuantSuffix .dot r with
      | none => none
      | some (a', rest') => parseSeqRE fuel (.cat acc a') rest'
    | '{' :: r =>
      match parseBraceQuant r with
      | some _ => none
      | none =>
        match parseQuantSuffix (.lit '{') r with
        | none => none
        | some (a', rest') => parseSeqRE fuel (.cat acc a') rest'
    | c :: r =>
      match parseQuantSuffix (.lit c) r with
      | none => none
      | some (a', rest') => parseSeqRE fuel (.cat acc a') rest'

/-- Parses an alternation, stopping at `)` or the end of the pattern. -/
def parseAltRE (fuel : Nat) (s : JStr) : Option (RE × JStr) :=
  match fuel with
  | 0 => none
  | fuel + 1 =>
    match parseSeqRE fuel .eps s with
    | none => none
    | some (a, s') =>
      match s' with
      | '|' :: r =>
        match parseAltRE fuel r with
        | some (b, s'') => some (.alt a b, s'')
        | none => none
      | _ => some (a, s')

end

/-- Models `new RegExp(pattern)`: `some` compiled regex, or `none` for the
thrown `SyntaxError`. -/
def compileRegex (p : JStr) : Option RE :=
  match parseAltRE (3 * p.length + 8) p with
  | some (re, []) => some re
  | _ => none

/-! ### The shared node and diagnostic model (`src/types.ts`) -/

/-- `XmlNode` from `types.ts`: element name, insertion-ordered attribute
record, ordered children, optional text, optional namespace (the
`namespace` field is spelled `nspace` because `namespace` is reserved). -/
inductive XmlNode : Type where
  | mk (name : JStr) (attributes : List (JStr × JStr)) (children : List XmlNode)
      (text : Option JStr) (nspace : Option JStr) : XmlNode

def XmlNode.name : XmlNode → JStr
  | .mk n _ _ _ _ => n

def XmlNode.attributes : XmlNode → List (JStr × JStr)
  | .mk _ a _ _ _ => a

def XmlNode.children : XmlNode → List XmlNode
  | .mk _ _ c _ _ => c

def XmlNode.text : XmlNode → Option JStr
  | .mk _ _ _ t _ => t

def XmlNode.nspace : XmlNode → Option JStr
  | .mk _ _ _ _ ns => ns

mutual

/-- Structural size of a node, used as the recursion measure. -/
def nodeSize : XmlNode → Nat
  | .mk _ _ cs _ _ => 1 + nodesSize cs

/-- Structural size of a list of nodes. -/
def nodesSize : List XmlNode → Nat
  | [] => 0
  | c :: cs => nodeSize c + nodesSize cs

end

/-- `ValidationError` from `types.ts`. -/
structure ValidationError : Type where
  line : Nat
  column : Nat
  message : JStr
  code : JStr
deriving DecidableEq

/-- The result of a JS call that can throw: a value, or a propagated
exception carrying its message. -/
inductive VRes (α : Type) : Type where
  | ok (a : α) : VRes α
  | thrown (msg : JStr) : VRes α
deriving DecidableEq

/-- Sequencing of throwing computations (JS evaluation order). -/
def VRes.bind {α β : Type} : VRes α → (α → VRes β) → VRes β
  | .ok a, f => f a
  | .thrown m, _ => .thrown m

/-! ### The schema model (`types.ts`) -/

/-- `number | 'unbounded'`, the type of `maxOccurs`. -/
inductive MaxOccurs : Type where
  | unbounded : MaxOccurs
  | num (n : JsNum) : MaxOccurs
deriving DecidableEq

/-- `XsdRestriction`: the facet kind string (a cast-through string in the
source) and its `string | number` value. -/
structure XsdRestriction : Type where
  type : JStr
  value : JsVal
deriving DecidableEq

/-- `XsdAttribute` (the `use` field is a string as in the source, where an
arbitrary attribute value is cast into the union type unchecked). -/
structure XsdAttribute : Type where
  name : JStr
  type : JStr
  use : JStr
  defaultValue : Option JStr
  fixedValue : Option JStr
deriving DecidableEq

/-- `XsdElement`.  Recursive because of its (never populated) `children`
field, hence an inductive with explicit accessors. -/
inductive XsdElement : Type where
  | mk (name : JStr) (type : JStr) (minOccurs : JsNum) (maxOccurs : MaxOccurs)
      (attributes : List XsdAttribute) (children : List XsdElement)
      (nspace : Option JStr) (restrictions : Option (List XsdRestriction)) :
      XsdElement

def XsdElement.name : XsdElement → JStr
  | .mk n _ _ _ _ _ _ _ => n

def XsdElement.type : XsdElement → JStr
  | .mk _ t _ _ _ _ _ _ => t

def XsdElement.minOccurs : XsdElement → JsNum
  | .mk _ _ mn _ _ _ _ _ => mn

def XsdElement.maxOccurs : XsdElement → MaxOccurs
  | .mk _ _ _ mx _ _ _ _ => mx

def XsdElement.attributes : XsdElement → List XsdAttribute
  | .mk _ _ _ _ a _ _ _ => a

def XsdElement.children : XsdElement → List XsdElement
  | .mk _ _ _ _ _ c _ _ => c

def XsdElement.nspace : XsdElement → Option JStr
  | .mk _ _ _ _ _ _ ns _ => ns

def XsdElement.restrictions : XsdElement → Option (List XsdRestriction)
  | .mk _ _ _ _ _ _ _ r => r

/-- `element.type = v` (record update). -/
def XsdElement.setType : XsdElement → JStr → XsdElement
  | .mk n _ mn mx a c ns r, t => .mk n t mn mx a c ns r

/-- `element.restrictions = v` (record update). -/
def XsdElement.setRestrictions : XsdElement → List XsdRestriction → XsdElement
  | .mk n t mn mx a c ns _, r => .mk n t mn mx a c ns (some r)

/-- `XsdComplexType`. -/
structure XsdComplexType : Type where
  name : JStr
  elements : List XsdElement
  attributes : List XsdAttribute

/-- `XsdSimpleType`. -/
structure XsdSimpleType : Type where
  name : JStr
  baseType : JStr
  restrictions : List XsdRestriction
deriving DecidableEq

/-- `XsdSchema`: the three name→definition records plus namespaces. -/
structure XsdSchema : Type where
  targetNamespace : Option JStr
  elements : List (JStr × XsdElement)
  complexTypes : List (JStr × XsdComplexType)
  simpleTypes : List (JStr × XsdSimpleType)
  namespaces : List (JStr × JStr)

/-! ### The validator (`src/xml-validator.ts`), class `XmlValidator`

`this.errors` accumulation is modelled by returning the pushed-error list
of each method in push order; a thrown exception (`VRes.thrown`)
propagates and discards the accumulated list, as an uncaught JS exception
does. -/

namespace XmlValidator

/-- Hand translation of `/^-?\d+$/` (full match, from `validateSimpleValue`). -/
def intLex (v : JStr) : Bool :=
  let v' := match v with
    | '-' :: r => r
    | r => r
  v' ≠ [] && v'.all isDigitCh

/-- Hand translation of `/^-?\d*\.?\d+$/`. -/
def decLex (v : JStr) : Bool :=
  let v' := match v with
    | '-' :: r => r
    | r => r
  let (_, c1, r1) := readDigits 10 v' 0 0
  match r1 with
  | [] => decide (0 < c1)
  | '.' :: r2 =>
    let (_, c2, r3) := readDigits 10 r2 0 0
    decide (0 < c2) && r3 = ([] : JStr)
  | _ => false

/-- Consumes exactly `n` decimal digits. -/
def digitsExact (n : Nat) (s : JStr) : Option JStr :=
  match n, s with
  | 0, s => some s
  | n + 1, c :: r => if isDigitCh c then digitsExact n r else none
  | _ + 1, [] => none

/-- Hand translation of `/^\d{4}-\d{2}-\d{2}$/`. -/
def dateLex (v : JStr) : Bool :=
  match digitsExact 4 v with
  | some ('-' :: r) =>
    (match digitsExact 2 r with
     | some ('-' :: r2) =>
       (match digitsExact 2 r2 with
        | some [] => true
        | _ => false)
     | _ => false)
  | _ => false

/-- The `(\.\d+)?` part: consumes an optional fraction, `none` when a `.`
is present without digits (no later alternative can then match). -/
def optFrac (s : JStr) : Option JStr :=
  match s with
  | '.' :: r =>
    let (_, c, r') := readDigits 10 r 0 0
    if 0 < c then some r' else none
  | r => some r

/-- The final `(Z|[+-]\d{2}:\d{2})?$` part. -/
def zoneEnd (s : JStr) : Bool :=
  match s with
  | [] => true
  | ['Z'] => true
  | c :: r =>
    (c = '+' || c = '-') &&
    (match digitsExact 2 r with
     | some (':' :: r2) =>
       (match digitsExact 2 r2 with
        | some [] => true
        | _ => false)
     | _ => false)

/-- The `\d{2}:\d{2}:\d{2}(\.\d+)?(Z|[+-]\d{2}:\d{2})?$` tail shared by the
`time` and `dateTime` patterns. -/
def timeTail (s : JStr) : Bool :=
  match digitsExact 2 s with
  | some (':' :: r) =>
    (match digitsExact 2 r with
     | some (':' :: r2) =>
       (match digitsExact 2 r2 with
        | some r3 =>
          (match optFrac r3 with
           | some r4 => zoneEnd r4
           | none => false)
        | none => false)
     | _ => false)
  | _ => false

/-- Hand translation of `/^\d{4}-\d{2}-\d{2}T\d{2}:\d{2}:\d{2}(\.\d+)?(Z|[+-]\d{2}:\d{2})?$/`. -/
def dateTimeLex (v : JStr) : Bool :=
  match digitsExact 4 v with
  | some ('-' :: r) =>
    (match digitsExact 2 r with
     | some ('-' :: r2) =>
       (match digitsExact 2 r2 with
        | some ('T' :: r3) => timeTail r3
        | _ => false)
     | _ => false)
  | _ => false

/-- `validateSimpleValue`: lexical check of a text value against a built-in
type keyword; unknown types are assumed valid. -/
def validateSimpleValue (value : JStr) (ty : JStr) : Bool :=
  if ty = "string".data then true
  else if ty = "int".data ∨ ty = "integer".data then intLex value
  else if ty = "decimal".data ∨ ty = "float".data ∨ ty = "double".data then
    decLex value
  else if ty = "boolean".data then
    value = "true".data || value = "false".data ||
    value = "1".data || value = "0".data
  else if ty = "date".data then dateLex value
  else if ty = "dateTime".data then dateTimeLex value
  else if ty = "time".data then timeTail value
  else true

/-- `isBuiltInType`. -/
def isBuiltInType (ty : JStr) : Bool :=
  ["string".data, "int".data, "integer".data, "decimal".data, "float".data,
   "double".data, "boolean".data, "date".data, "dateTime".data, "time".data,
   "base64Binary".data, "hexBinary".data].contains ty

/-- `xmlNode.text || xmlNode.children.find(c => c.name === '#text')?.text || ''`. -/
def textContentOf (n : XmlNode) : JStr :=
  truthyOr
    (match n.text with
     | some t => t
     | none => [])
    (match n.children.find? (fun c => c.name = "#text".data) with
     | some c =>
       (match c.text with
        | some t => t
        | none => [])
     | none => [])

/-- JS falsiness of an attribute read `!xmlNode.attributes[name]`:
true for a missing attribute and for an empty-string value. -/
def attrFalsy (o : Option JStr) : Bool :=
  match o with
  | none => true
  | some v => v = []

/-- One facet of `validateRestrictions` (one `switch` arm). -/
def validateRestriction1 (value : JStr) (r : XsdRestriction) (line column : Nat)
    (elementName : JStr) : VRes (List ValidationError) :=
  if r.type = "minLength".data then
    .ok (if JsNum.ltb (.rat value.length) r.value.toNum then
      [⟨line, column,
        "Value ".data ++ sqc ++ value ++ sqc ++ " in element ".data ++ sqc ++
        elementName ++ sqc ++ " is too short. Minimum length is ".data ++
        r.value.toStr, "MIN_LENGTH_VIOLATION".data⟩]
    else [])
  else if r.type = "maxLength".data then
    .ok (if JsNum.gtb (.rat value.length) r.value.toNum then
      [⟨line, column,
        "Value ".data ++ sqc ++ value ++ sqc ++ " in element ".data ++ sqc ++
        elementName ++ sqc ++ " is too long. Maximum length is ".data ++
        r.value.toStr, "MAX_LENGTH_VIOLATION".data⟩]
    else [])
  else if r.type = "pattern".data then
    match compileRegex r.value.toStr with
    | none => .thrown "Invalid regular expression".data
    | some re =>
      .ok (if !jsTest re value then
        [⟨line, column,
          "Value ".data ++ sqc ++ value ++ sqc ++ " in element ".data ++ sqc ++
          elementName ++ sqc ++ " does not match pattern ".data ++ sqc ++
          r.value.toStr ++ sqc, "PATTERN_VIOLATION".data⟩]
      else [])
  else if r.type = "enumeration".data then .ok []
  else if r.type = "minInclusive".data then
    .ok (if JsNum.ltb (jsNumber value) r.value.toNum then
      [⟨line, column,
        "Value ".data ++ sqc ++ value ++ sqc ++ " in element ".data ++ sqc ++
        elementName ++ sqc ++ " is below minimum ".data ++ r.value.toStr,
        "MIN_INCLUSIVE_VIOLATION".data⟩]
    else [])
  else if r.type = "maxInclusive".data then
    .ok (if JsNum.gtb (jsNumber value) r.value.toNum then
      [⟨line, column,
        "Value ".data ++ sqc ++ value ++ sqc ++ " in element ".data ++ sqc ++
        elementName ++ sqc ++ " is above maximum ".data ++ r.value.toStr,
        "MAX_INCLUSIVE_VIOLATION".data⟩]
    else [])
  else .ok []

/-- `validateRestrictions`: the `for` loop over the facet list. -/
def validateRestrictions (value : JStr) (rs : List XsdRestriction)
    (line column : Nat) (elementName : JStr) : VRes (List ValidationError) :=
  match rs with
  | [] => .ok []
  | r :: rest =>
    VRes.bind (validateRestriction1 value r line column elementName) fun es =>
    VRes.bind (validateRestrictions value rest line column elementName) fun es' =>
    .ok (es ++ es')

/-- The required-attribute loop of `validateAttributes`. -/
def requiredAttrErrs (n : XmlNode) (decls : List XsdAttribute)
    (line column : Nat) : List ValidationError :=
  decls.foldr
    (fun a acc =>
      (if a.use = "required".data ∧ attrFalsy (recordGet n.attributes a.name) then
        [⟨line, column,
          "Required attribute ".data ++ sqc ++ a.name ++ sqc ++ " is missing".data,
          "MISSING_REQUIRED_ATTRIBUTE".data⟩]
      else []) ++ acc)
    []

/-- The present-attribute loop of `validateAttributes` (over
`Object.entries(xmlNode.attributes)` in insertion order). -/
def presentAttrErrs (entries : List (JStr × JStr)) (decls : List XsdAttribute)
    (line column : Nat) : List ValidationError :=
  entries.foldr
    (fun e acc =>
      let attrName := e.1
      let attrValue := e.2
      (match decls.find? (fun a => a.name = attrName) with
       | none =>
         [⟨line, column,
           "Attribute ".data ++ sqc ++ attrName ++ sqc ++ " is not allowed".data,
           "UNEXPECTED_ATTRIBUTE".data⟩]
       | some a =>
         (match a.fixedValue with
          | some fv =>
            if fv ≠ [] ∧ attrValue ≠ fv then
              [⟨line, column,
                "Attribute ".data ++ sqc ++ attrName ++ sqc ++
                " must have value ".data ++ sqc ++ fv ++ sqc,
                "FIXED_VALUE_VIOLATION".data⟩]
            else []
          | none => []) ++
         (if !validateSimpleValue attrValue a.type then
           [⟨line, column,
             "Invalid value ".data ++ sqc ++ attrValue ++ sqc ++
             " for attribute ".data ++ sqc ++ attrName ++ sqc ++
             " of type ".data ++ sqc ++ a.type ++ sqc,
             "INVALID_ATTRIBUTE_VALUE".data⟩]
         else [])) ++ acc)
    []

/-- `validateAttributes`: runs only when the element's type resolves to a
declared complex type; never throws. -/
def validateAttributes (s : XsdSchema) (n : XmlNode) (d : XsdElement)
    (line column : Nat) : List ValidationError :=
  match recordGet s.complexTypes d.type with
  | none => []
  | some ct =>
    requiredAttrErrs n ct.attributes line column ++
    presentAttrErrs n.attributes ct.attributes line column

/-- `validateSimpleContent`. -/
def validateSimpleContent (n : XmlNode) (d : XsdElement) (line column : Nat) :
    VRes (List ValidationError) :=
  if decide (0 < n.children.length) &&
      n.children.any (fun c => c.name ≠ "#text".data) then
    .ok [⟨line, column,
      "Element ".data ++ sqc ++ n.name ++ sqc ++
      " should contain simple content but has child elements".data,
      "INVALID_CONTENT".data⟩]
  else
    let textContent := textContentOf n
    let base :=
      if !validateSimpleValue textContent d.type then
        [⟨line, column,
          "Invalid value ".data ++ sqc ++ textContent ++ sqc ++
          " for element ".data ++ sqc ++ n.name ++ sqc ++ " of type ".data ++
          sqc ++ d.type ++ sqc, "INVALID_ELEMENT_VALUE".data⟩]
      else []
    match d.restrictions with
    | some rs =>
      VRes.bind (validateRestrictions textContent rs line column n.name)
        fun es => .ok (base ++ es)
    | none => .ok base

/-- `validateSimpleTypeContent`. -/
def validateSimpleTypeContent (n : XmlNode) (st : XsdSimpleType)
    (line column : Nat) : VRes (List ValidationError) :=
  let textContent := textContentOf n
  let base :=
    if !validateSimpleValue textContent st.baseType then
      [⟨line, column,
        "Invalid value ".data ++ sqc ++ textContent ++ sqc ++
        " for base type ".data ++ sqc ++ st.baseType ++ sqc,
        "INVALID_SIMPLE_TYPE_VALUE".data⟩]
    else []
  VRes.bind (validateRestrictions textContent st.restrictions line column n.name)
    fun es => .ok (base ++ es)

/-- `validateInlineContent`. -/
def validateInlineContent (n : XmlNode) (d : XsdElement) (line column : Nat) :
    VRes (List ValidationError) :=
  match d.restrictions with
  | some rs => validateRestrictions (textContentOf n) rs line column n.name
  | none => .ok []

/-- The `MIN_OCCURS_VIOLATION` diagnostic for one particle at a given
matching-children count (its message carries the particle name, the
observed count and the declared minimum). -/
def minOccursError (d : XsdElement) (cnt : Nat) (line column : Nat) :
    ValidationError :=
  ⟨line, column,
    "Element ".data ++ sqc ++ d.name ++ sqc ++ " occurs ".data ++
    natDigits cnt ++ " times but minimum is ".data ++
    jsNumToString d.minOccurs, "MIN_OCCURS_VIOLATION".data⟩

/-- The `MAX_OCCURS_VIOLATION` diagnostic for one particle. -/
def maxOccursError (d : XsdElement) (cnt : Nat) (m : JsNum)
    (line column : Nat) : ValidationError :=
  ⟨line, column,
    "Element ".data ++ sqc ++ d.name ++ sqc ++ " occurs ".data ++
    natDigits cnt ++ " times but maximum is ".data ++ jsNumToString m,
    "MAX_OCCURS_VIOLATION".data⟩

/-- The two occurrence checks of one particle-loop iteration of
`validateComplexContent`, at a given matching-children count. -/
def occurrenceErrs (d : XsdElement) (cnt : Nat) (line column : Nat) :
    List ValidationError :=
  (if JsNum.ltb (.rat cnt) d.minOccurs then [minOccursError d cnt line column]
  else []) ++
  (match d.maxOccurs with
   | .unbounded => []
   | .num m =>
     if JsNum.gtb (.rat cnt) m then [maxOccursError d cnt m line column]
     else [])

/-- The trailing unexpected-element loop of `validateComplexContent`. -/
def unexpectedErrs (childElements : List XmlNode) (decls : List XsdElement)
    (line column : Nat) : List ValidationError :=
  childElements.foldr
    (fun c acc =>
      (if !decls.any (fun d => d.name = c.name) then
        [⟨line, column,
          "Unexpected element ".data ++ sqc ++ c.name ++ sqc,
          "UNEXPECTED_ELEMENT".data⟩]
      else []) ++ acc)
    []

mutual

/-- `validateElement`. -/
def validateElement (s : XsdSchema) (n : XmlNode) (d : XsdElement)
    (line column : Nat) : VRes (List ValidationError) :=
  if n.name ≠ d.name then
    .ok [⟨line, column,
      "Expected element ".data ++ sqc ++ d.name ++ sqc ++ " but found ".data ++
      sqc ++ n.name ++ sqc, "ELEMENT_MISMATCH".data⟩]
  else
    let attrErrs := validateAttributes s n d line column
    let content : VRes (List ValidationError) :=
      if isBuiltInType d.type then validateSimpleContent n d line column
      else
        match recordGet s.complexTypes d.type with
        | some ct => validateComplexContent s n ct line column
        | none =>
          match recordGet s.simpleTypes d.type with
          | some st => validateSimpleTypeContent n st line column
          | none =>
            if jsStartsWith d.type "#inline-".data then
              validateInlineContent n d line column
            else .ok []
    VRes.bind content fun es => .ok (attrErrs ++ es)
termination_by (nodeSize n, 1, 0)
decreasing_by
  simp only [Prod.lex_def, true_and, and_true]
  omega

/-- `validateComplexContent`: particle loop, then unexpected-element loop. -/
def validateComplexContent (s : XsdSchema) (n : XmlNode) (ct : XsdComplexType)
    (line column : Nat) : VRes (List ValidationError) :=
  let childElements := n.children.filter (fun c => c.name ≠ "#text".data)
  VRes.bind (validateParticles s childElements ct.elements line column) fun es =>
  .ok (es ++ unexpectedErrs childElements ct.elements line column)
termination_by (nodeSize n, 0, 0)
decreasing_by
  have hf : ∀ (p : XmlNode → Bool) (l : List XmlNode),
      nodesSize (l.filter p) ≤ nodesSize l := by
    intro p l
    induction l with
    | nil => simp [List.filter]
    | cons x xs ih =>
      simp only [List.filter]
      split
      · simp only [nodesSize]; omega
      · simp only [nodesSize]; omega
  have := hf (fun c => decide (c.name ≠ "#text".data)) n.children
  simp only [Prod.lex_def, true_and, and_true]
  cases n with
  | mk nm at_ cs tx ns =>
    simp only [XmlNode.children, nodeSize] at *
    omega

/-- The particle loop of `validateComplexContent`: for each declared
particle, the two occurrence checks followed by recursive validation of
each matching child. -/
def validateParticles (s : XsdSchema) (childElements : List XmlNode)
    (particles : List XsdElement) (line column : Nat) :
    VRes (List ValidationError) :=
  match particles with
  | [] => .ok []
  | d :: rest =>
    let matching := childElements.filter (fun c => c.name = d.name)
    VRes.bind (validateChildren s matching d line column) fun es =>
    VRes.bind (validateParticles s childElements rest line column) fun es' =>
    .ok (occurrenceErrs d matching.length line column ++ es ++ es')
termination_by (nodesSize childElements, 9, particles.length)
decreasing_by
  · have hf : ∀ (p : XmlNode → Bool) (l : List XmlNode),
        nodesSize (l.filter p) ≤ nodesSize l := by
      intro p l
      induction l with
      | nil => simp [List.filter]
      | cons x xs ih =>
        simp only [List.filter]
        split
        · simp only [nodesSize]; omega
        · simp only [nodesSize]; omega
    have := hf (fun c => decide (c.name = d.name)) childElements
    simp only [Prod.lex_def, true_and, and_true]
    omega
  · simp only [Prod.lex_def, true_and, and_true, List.length_cons]
    omega

/-- The inner loop validating each matching child against one particle. -/
def validateChildren (s : XsdSchema) (cs : List XmlNode) (d : XsdElement)
    (line column : Nat) : VRes (List ValidationError) :=
  match cs with
  | [] => .ok []
  | c :: rest =>
    VRes.bind (validateElement s c d line column) fun es =>
    VRes.bind (validateChildren s rest d line column) fun es' =>
    .ok (es ++ es')
termination_by (nodesSize cs, 2, 0)
decreasing_by
  · simp only [Prod.lex_def, true_and, and_true, nodesSize]
    omega
  · have hp : ∀ m : XmlNode, 1 ≤ nodeSize m := by
      intro m; cases m; simp [nodeSize]
    simp only [Prod.lex_def, true_and, and_true, nodesSize]
    have := hp c
    omega

end

/-- `validate`: root lookup by the document root's own name, then
`validateElement`. -/
def validate (s : XsdSchema) (n : XmlNode) : VRes (List ValidationError) :=
  match recordGet s.elements n.name with
  | none =>
    .ok [⟨1, 1,
      "Root element ".data ++ sqc ++ n.name ++ sqc ++ " not found in schema".data,
      "ELEMENT_NOT_FOUND".data⟩]
  | some d => validateElement s n d 1 1

end XmlValidator

/-! ### The schema builder (`src/xsd-parser.ts`), class `XsdParser` -/

namespace XsdParser

/-- `getLocalName`: strip up to the first `:` (via `indexOf`). -/
def getLocalName (name : JStr) : JStr :=
  let i := name.findIdx (fun c => c = ':')
  if i = name.length then name else name.drop (i + 1)

/-- `parseAttribute`. -/
def parseAttribute (attributeNode : XmlNode) : XsdAttribute :=
  ⟨truthyOrOpt (recordGet attributeNode.attributes "name".data) [],
   truthyOrOpt (recordGet attributeNode.attributes "type".data) "string".data,
   truthyOrOpt (recordGet attributeNode.attributes "use".data) "optional".data,
   recordGet attributeNode.attributes "default".data,
   recordGet attributeNode.attributes "fixed".data⟩

/-- `parseSimpleType`: harvest the `restriction` children; each restriction
child with a defined `value` attribute becomes one facet, numerically
coerced when `Number(value)` is not NaN. -/
def parseSimpleType (simpleTypeNode : XmlNode) : XsdSimpleType :=
  simpleTypeNode.children.foldl
    (fun st child =>
      if getLocalName child.name = "restriction".data then
        let st :=
          { st with
            baseType :=
              truthyOrOpt (recordGet child.attributes "base".data) "string".data }
        child.children.foldl
          (fun st rc =>
            match recordGet rc.attributes "value".data with
            | some v =>
              { st with
                restrictions := st.restrictions ++
                  [⟨getLocalName rc.name,
                    if (jsNumber v).isNaN then .str v else .num (jsNumber v)⟩] }
            | none => st)
          st
      else st)
    ⟨truthyOrOpt (recordGet simpleTypeNode.attributes "name".data) [],
     "string".data, []⟩

mutual

/-- `parseElement` of `XsdParser`: the element record from the node's
attributes, then the inline-type child loop. -/
def parseElement (elementNode : XmlNode) : XsdElement :=
  let el : XsdElement := .mk
    (truthyOrOpt (recordGet elementNode.attributes "name".data) [])
    (truthyOrOpt (recordGet elementNode.attributes "type".data) "string".data)
    (jsParseInt
      (truthyOrOpt (recordGet elementNode.attributes "minOccurs".data) "1".data))
    (if recordGet elementNode.attributes "maxOccurs".data =
        some "unbounded".data then .unbounded
     else .num (jsParseInt
       (truthyOrOpt (recordGet elementNode.attributes "maxOccurs".data) "1".data)))
    [] [] elementNode.nspace none
  elemChildLoop elementNode.children el
termination_by (nodeSize elementNode, 0)
decreasing_by
  simp only [Prod.lex_def, true_and, and_true]
  cases elementNode with
  | mk nm at_ cs tx ns =>
    simp only [XmlNode.children, nodeSize]
    omega

/-- The child loop of `XsdParser.parseElement`: an inline `complexType`
child is parsed and discarded (only the inline marker is kept); an inline
`simpleType` child contributes its restriction facets. -/
def elemChildLoop (cs : List XmlNode) (el : XsdElement) : XsdElement :=
  match cs with
  | [] => el
  | child :: rest =>
    let el' :=
      if getLocalName child.name = "complexType".data then
        let _ := parseComplexType child
        el.setType ("#inline-".data ++ el.name)
      else if getLocalName child.name = "simpleType".data then
        let st := parseSimpleType child
        (el.setType ("#inline-".data ++ el.name)).setRestrictions st.restrictions
      else el
    elemChildLoop rest el'
termination_by (nodesSize cs, 1 + cs.length)
decreasing_by
  · simp only [Prod.lex_def, true_and, and_true, nodesSize, List.length_cons]
    omega
  · simp only [Prod.lex_def, true_and, and_true, nodesSize, List.length_cons]
    omega

/-- `parseComplexType`. -/
def parseComplexType (complexTypeNode : XmlNode) : XsdComplexType :=
  ctChildLoop complexTypeNode.children
    ⟨truthyOrOpt (recordGet complexTypeNode.attributes "name".data) [], [], []⟩
termination_by (nodeSize complexTypeNode, 0)
decreasing_by
  simp only [Prod.lex_def, true_and, and_true]
  cases complexTypeNode with
  | mk nm at_ cs tx ns =>
    simp only [XmlNode.children, nodeSize]
    omega

/-- The child loop of `parseComplexType`: `sequence`/`choice`/`all` groups
are flattened; `attribute` children are collected. -/
def ctChildLoop (cs : List XmlNode) (ct : XsdComplexType) : XsdComplexType :=
  match cs with
  | [] => ct
  | child :: rest =>
    let ln := getLocalName child.name
    let ct' :=
      if ln = "sequence".data ∨ ln = "choice".data ∨ ln = "all".data then
        ctGroupLoop child.children ct
      else if ln = "attribute".data then
        { ct with attributes := ct.attributes ++ [parseAttribute child] }
      else ct
    ctChildLoop rest ct'
termination_by (nodesSize cs, 1 + cs.length)
decreasing_by
  · have hcc : nodesSize c.children < nodeSize c := by
      cases c with
      | mk nm at_ gs tx ns =>
        simp only [XmlNode.children, nodeSize]
        omega
    simp only [Prod.lex_def, true_and, and_true, nodesSize, List.length_cons]
    omega
  · simp only [Prod.lex_def, true_and, and_true, nodesSize, List.length_cons]
    omega

/-- The group loop of `parseComplexType`: each `element` child of a group
becomes one particle. -/
def ctGroupLoop (gs : List XmlNode) (ct : XsdComplexType) : XsdComplexType :=
  match gs with
  | [] => ct
  | g :: rest =>
    let ct' :=
      if getLocalName g.name = "element".data then
        { ct with elements := ct.elements ++ [parseElement g] }
      else ct
    ctGroupLoop rest ct'
termination_by (nodesSize gs, 1 + gs.length)
decreasing_by
  · simp only [Prod.lex_def, true_and, and_true, nodesSize, List.length_cons]
    omega
  · simp only [Prod.lex_def, true_and, and_true, nodesSize, List.length_cons]
    omega

end

/-- `buildSchema`: root-name check (the only throw site), namespace
harvest, then the child dispatch loop keyed by local name. -/
def buildSchema (schemaNode : XmlNode) : VRes XsdSchema :=
  if schemaNode.name ≠ "schema".data ∧
      ¬ jsEndsWith schemaNode.name ":schema".data then
    .thrown "Root element must be schema".data
  else
    let nss := schemaNode.attributes.foldl
      (fun acc kv =>
        if jsStartsWith kv.1 "xmlns:".data then recordSet acc (kv.1.drop 6) kv.2
        else if kv.1 = "xmlns".data then recordSet acc [] kv.2
        else acc)
      []
    let init : XsdSchema :=
      ⟨recordGet schemaNode.attributes "targetNamespace".data, [], [], [], nss⟩
    .ok (schemaNode.children.foldl
      (fun sch child =>
        let ln := getLocalName child.name
        if ln = "element".data then
          let el := parseElement child
          { sch with elements := recordSet sch.elements el.name el }
        else if ln = "complexType".data then
          let ct := parseComplexType child
          { sch with complexTypes := recordSet sch.complexTypes ct.name ct }
        else if ln = "simpleType".data then
          let st := parseSimpleType child
          { sch with simpleTypes := recordSet sch.simpleTypes st.name st }
        else sch)
      init)

end XsdParser

/-! ### The parser (`src/xml-parser.ts`), class `XmlParser`

The mutable cursor (`position`, `line`, `column` over the fixed input
`xml`) is the explicit state `PState`; every JS `throw` is a `PRes.err`
carrying the error message and the state at the throw (the `catch` in
`parse` reads `this.line`/`this.column`, which the throw does not unwind);
`PRes.div` models divergence (JS infinite loop), reached only by fuel
exhaustion of the loops that do not always advance the cursor. -/

namespace XmlParser

/-- The parser's mutable fields. -/
structure PState : Type where
  xml : JStr
  position : Nat
  line : Nat
  column : Nat
deriving DecidableEq

/-- `this.current()`, i.e. `this.xml[this.position] || ''`. -/
def PState.curr (s : PState) : JStr := charAt s.xml s.position

/-- `this.peek(offset)`. -/
def PState.peekAt (s : PState) (off : Nat) : JStr :=
  charAt s.xml (s.position + off)

/-- `this.advance()`: the one primitive updating the cursor triple. -/
def PState.advance (s : PState) : PState :=
  if s.position < s.xml.length then
    if charAt s.xml s.position = ['\n'] then
      ⟨s.xml, s.position + 1, s.line + 1, 1⟩
    else ⟨s.xml, s.position + 1, s.line, s.column + 1⟩
  else s

/-- The result of a parsing method: a value and the updated state, a
thrown error with the state at the throw, or divergence. -/
inductive PRes (α : Type) : Type where
  | ok (a : α) (s : PState) : PRes α
  | err (msg : JStr) (s : PState) : PRes α
  | div : PRes α

/-- `isWhitespace(char)`. -/
def isWhitespaceS (c : JStr) : Bool :=
  c = [' '] || c = ['\t'] || c = ['\n'] || c = ['\r']

/-- `isNameStartChar(char)`: hand translation of `/[a-zA-Z_]/` plus the
`charCodeAt` range checks (`!char` is the empty-string case). -/
def isNameStartCharS (c : JStr) : Bool :=
  match c with
  | [] => false
  | ch :: _ =>
    decide ((('a' ≤ ch ∧ ch ≤ 'z') ∨ ('A' ≤ ch ∧ ch ≤ 'Z') ∨ ch = '_') ∨
      (0xC0 ≤ ch.toNat ∧ ch.toNat ≤ 0xD6) ∨
      (0xD8 ≤ ch.toNat ∧ ch.toNat ≤ 0xF6) ∨ 0xF8 ≤ ch.toNat)

/-- `isNameChar(char)`: hand translation of `/[a-zA-Z0-9_:.-]/` plus the
`charCodeAt` range checks. -/
def isNameCharS (c : JStr) : Bool :=
  match c with
  | [] => false
  | ch :: _ =>
    decide ((('a' ≤ ch ∧ ch ≤ 'z') ∨ ('A' ≤ ch ∧ ch ≤ 'Z') ∨
      ('0' ≤ ch ∧ ch ≤ '9') ∨ ch = '_' ∨ ch = ':' ∨ ch = '.' ∨ ch = '-') ∨
      (0xC0 ≤ ch.toNat ∧ ch.toNat ≤ 0xD6) ∨
      (0xD8 ≤ ch.toNat ∧ ch.toNat ≤ 0xF6) ∨ 0xF8 ≤ ch.toNat)

/-- `skipWhitespace`. -/
def skipWhitespace (s : PState) : PState :=
  if _h : s.position < s.xml.length ∧ isWhitespaceS s.curr then
    skipWhitespace s.advance
  else s
termination_by s.xml.length - s.position
decreasing_by
  simp only [PState.advance]
  split
  · split <;> simp <;> omega
  · omega

/-- The scan loop of `parseName`. -/
def parseNameLoop (s : PState) (name : JStr) : JStr × PState :=
  if _h : s.position < s.xml.length then
    if isNameCharS s.curr then parseNameLoop s.advance (name ++ s.curr)
    else (name, s)
  else (name, s)
termination_by s.xml.length - s.position
decreasing_by
  simp only [PState.advance]
  split
  · split <;> simp <;> omega
  · omega

/-- `parseName`. -/
def parseName (s : PState) : PRes JStr :=
  let firstChar := s.curr
  if !isNameStartCharS firstChar then
    .err ("Invalid name start character: ".data ++ sqc ++ firstChar ++ sqc) s
  else
    match parseNameLoop s [] with
    | (name, s') =>
      if name = [] then .err "Expected element name".data s'
      else .ok name s'

/-- `String.fromCharCode` on a `parseInt` result: NaN and the infinities
map to code unit 0; a finite value is taken modulo 2^16.  (A code unit in
the surrogate range has no scalar value; the model maps it to `'\0'`.) -/
def jsFromCharCode (n : JsNum) : Char :=
  match n with
  | .rat q => Char.ofNat (((q.num.tdiv (q.den : Int)) % 65536).toNat)
  | _ => Char.ofNat 0

/-- The entity-name scan loop of `parseEntity`. -/
def parseEntityLoop (s : PState) (entity : JStr) : JStr × PState :=
  if _h : s.position < s.xml.length ∧ s.curr ≠ [';'] then
    parseEntityLoop s.advance (entity ++ s.curr)
  else (entity, s)
termination_by s.xml.length - s.position
decreasing_by
  simp only [PState.advance]
  split
  · split <;> simp <;> omega
  · omega

/-- The entity-decoding `switch` of `parseEntity`. -/
def decodeEntity (entity : JStr) : JStr :=
  if entity = "amp".data then "&".data
  else if entity = "lt".data then "<".data
  else if entity = "gt".data then ">".data
  else if entity = "quot".data then [Char.ofNat 34]
  else if entity = "apos".data then sqc
  else if jsStartsWith entity "#".data then
    let code :=
      if jsStartsWith entity "#x".data then jsParseIntRadix (entity.drop 2) 16
      else jsParseIntRadix (entity.drop 1) 10
    [jsFromCharCode code]
  else "&".data ++ entity ++ ";".data

/-- `parseEntity`. -/
def parseEntity (s : PState) : PRes JStr :=
  if s.curr ≠ ['&'] then .err "Expected entity".data s
  else
    match parseEntityLoop s.advance [] with
    | (entity, s2) =>
      if s2.curr ≠ [';'] then .err "Unterminated entity".data s2
      else .ok (decodeEntity entity) s2.advance

/-- The value scan loop of `parseAttributeValue` (fuelled: it interleaves
`parseEntity` calls with single-character advances). -/
def parseAttrValLoop (fuel : Nat) (quote : JStr) (s : PState) (value : JStr) :
    PRes JStr :=
  match fuel with
  | 0 => .div
  | fuel + 1 =>
    if s.position < s.xml.length ∧ s.curr ≠ quote then
      if s.curr = ['&'] then
        match parseEntity s with
        | .ok e s' => parseAttrValLoop fuel quote s' (value ++ e)
        | .err m s' => .err m s'
        | .div => .div
      else parseAttrValLoop fuel quote s.advance (value ++ s.curr)
    else .ok value s

/-- `parseAttributeValue`. -/
def parseAttributeValue (fuel : Nat) (s : PState) : PRes JStr :=
  let quote := s.curr
  if quote ≠ ['"'] ∧ quote ≠ sqc then
    .err ("Expected quote but found ".data ++ sqc ++ quote ++ sqc) s
  else
    match parseAttrValLoop fuel quote s.advance [] with
    | .ok value s2 =>
      if s2.curr ≠ quote then .err "Unterminated attribute value".data s2
      else .ok value s2.advance
    | .err m s' => .err m s'
    | .div => .div

/-- `parseAttributes` (fuelled loop; each iteration parses one
`name = "value"` pair into the attribute record). -/
def parseAttributes (fuel : Nat) (s : PState)
    (attributes : List (JStr × JStr)) : PRes (List (JStr × JStr)) :=
  match fuel with
  | 0 => .div
  | fuel + 1 =>
    if s.position < s.xml.length then
      let s1 := skipWhitespace s
      if s1.curr = ['>'] ∨ s1.curr = ['/'] ∨ s1.curr = ['?'] then
        .ok attributes s1
      else
        match parseName s1 with
        | .err m s' => .err m s'
        | .div => .div
        | .ok name s2 =>
          let s3 := skipWhitespace s2
          if s3.curr ≠ ['='] then
            .err ("Expected ".data ++ sqc ++ "=".data ++ sqc ++
              " after attribute name ".data ++ sqc ++ name ++ sqc) s3
          else
            let s4 := skipWhitespace s3.advance
            match parseAttributeValue fuel s4 with
            | .ok value s5 => parseAttributes fuel s5 (recordSet attributes name value)
            | .err m s' => .err m s'
            | .div => .div
    else .ok attributes s

/-- `parseEndTag`: checks the end tag only when one is present at the
cursor (`current() === '<' && peek() === '/'`); otherwise it is a no-op. -/
def parseEndTag (expectedName : JStr) (s : PState) : PRes Unit :=
  if s.curr = ['<'] ∧ s.peekAt 1 = ['/'] then
    match parseName s.advance.advance with
    | .err m s' => .err m s'
    | .div => .div
    | .ok endTagName s2 =>
      if endTagName ≠ expectedName then
        .err ("End tag ".data ++ sqc ++ endTagName ++ sqc ++
          " does not match start tag ".data ++ sqc ++ expectedName ++ sqc) s2
      else
        let s3 := skipWhitespace s2
        if s3.curr ≠ ['>'] then
          .err ("Expected ".data ++ sqc ++ ">".data ++ sqc ++ " in end tag".data) s3
        else .ok () s3.advance
  else .ok () s

/-- `buildElementNode`. -/
def buildElementNode (name : JStr) (attributes : List (JStr × JStr))
    (children : List XmlNode) (text : JStr) : XmlNode :=
  if jsTrim text ≠ [] ∧ children.length = 0 then
    .mk name attributes children (some (jsTrim text)) none
  else .mk name attributes children none none

/-- End-of-content step shared by the two exits of the content loop:
`parseEndTag` then `buildElementNode`. -/
def finishElement (name : JStr) (attributes : List (JStr × JStr))
    (children : List XmlNode) (text : JStr) (s : PState) : PRes XmlNode :=
  match parseEndTag name s with
  | .ok _ s' => .ok (buildElementNode name attributes children text) s'
  | .err m s' => .err m s'
  | .div => .div

mutual

/-- `parseElement`. -/
def parseElement (fuel : Nat) (s : PState) : PRes XmlNode :=
  match fuel with
  | 0 => .div
  | fuel + 1 =>
    if s.curr ≠ ['<'] then
      .err ("Expected ".data ++ sqc ++ "<".data ++ sqc ++ " but found ".data ++
        sqc ++ s.curr ++ sqc) s
    else
      let s1 := s.advance
      if s1.curr = ['/'] then .err "Unexpected end tag".data s1
      else
        match parseName s1 with
        | .err m s' => .err m s'
        | .div => .div
        | .ok name s2 =>
          match parseAttributes fuel s2 [] with
          | .err m s' => .err m s'
          | .div => .div
          | .ok attributes s3 =>
            let s4 := skipWhitespace s3
            if s4.curr = ['/'] ∧ s4.peekAt 1 = ['>'] then
              .ok (.mk name attributes [] none none) s4.advance.advance
            else if s4.curr ≠ ['>'] then
              .err ("Expected ".data ++ sqc ++ ">".data ++ sqc ++
                " but found ".data ++ sqc ++ s4.curr ++ sqc) s4
            else parseElementContent fuel name attributes [] [] s4.advance

/-- `parseElementContent`: the content loop, carrying the accumulated
children and pending text (non-blank text is flushed into a `#text` child
before a child element is parsed). -/
def parseElementContent (fuel : Nat) (name : JStr)
    (attributes : List (JStr × JStr)) (children : List XmlNode) (text : JStr)
    (s : PState) : PRes XmlNode :=
  match fuel with
  | 0 => .div
  | fuel + 1 =>
    if s.position < s.xml.length then
      let s1 := skipWhitespace s
      if s1.curr = ['<'] then
        if s1.peekAt 1 = ['/'] then finishElement name attributes children text s1
        else
          let flushed : List XmlNode × JStr :=
            if jsTrim text ≠ [] then
              (children ++ [.mk "#text".data [] [] (some (jsTrim text)) none], [])
            else (children, text)
          match parseElement fuel s1 with
          | .err m s' => .err m s'
          | .div => .div
          | .ok child s2 =>
            parseElementContent fuel name attributes (flushed.1 ++ [child])
              flushed.2 s2
      else parseElementContent fuel name attributes children (text ++ s1.curr) s1.advance
    else finishElement name attributes children text s

end

/-- `skipDeclaration`: the scan loop up to `?>`. -/
def skipDeclarationLoop (s : PState) : PState :=
  if _h : s.position < s.xml.length ∧ ¬(s.curr = ['?'] ∧ s.peekAt 1 = ['>']) then
    skipDeclarationLoop s.advance
  else s
termination_by s.xml.length - s.position
decreasing_by
  simp only [PState.advance]
  split
  · split <;> simp <;> omega
  · omega

/-- `skipDeclaration`. -/
def skipDeclaration (s : PState) : PState :=
  let s1 := skipDeclarationLoop s
  let s2 := if s1.curr = ['?'] then s1.advance else s1
  if s2.curr = ['>'] then s2.advance else s2

/-- The scan loop of `skipXmlComment` (note the two raw `position`
increments that bypass `advance`). -/
def skipXmlCommentLoop (s : PState) : PState :=
  if _h : s.position < s.xml.length - 2 then
    if jsSubstring s.xml s.position (s.position + 3) = "-->".data then
      { s with position := s.position + 3 }
    else skipXmlCommentLoop s.advance
  else s
termination_by s.xml.length - s.position
decreasing_by
  simp only [PState.advance]
  split
  · split <;> simp <;> omega
  · omega

/-- `skipXmlComment` (dead code in practice: its caller's guard never
holds, see `skipComment`). -/
def skipXmlComment (s : PState) : PState :=
  skipXmlCommentLoop { s with position := s.position + 4 }

/-- The depth-counting scan loop of `skipDoctype`. -/
def skipDoctypeLoop (depth : Int) (s : PState) : PState :=
  if _h : s.position < s.xml.length then
    if s.curr = ['<'] then skipDoctypeLoop (depth + 1) s.advance
    else if s.curr = ['>'] then
      (if depth - 1 = 0 then s.advance else skipDoctypeLoop (depth - 1) s.advance)
    else skipDoctypeLoop depth s.advance
  else s
termination_by s.xml.length - s.position
decreasing_by
  all_goals
    simp only [PState.advance]
    split
    · split <;> simp <;> omega
    · omega

/-- `skipDoctype`. -/
def skipDoctype (s : PState) : PState := skipDoctypeLoop 0 s

/-- `skipComment`: both guards compare a single peeked character with a
multi-character string, so neither can hold and the function is the
identity on every state. -/
def skipComment (s : PState) : PState :=
  if s.peekAt 4 = "<!--".data then skipXmlComment s
  else if s.peekAt 9 = "<!DOCTYPE".data then skipDoctype s
  else s

/-- `skipProcessingInstruction`. -/
def skipProcessingInstruction (s : PState) : PState :=
  if _h : s.position < s.xml.length - 1 then
    if s.curr = ['?'] ∧ s.peekAt 1 = ['>'] then s.advance.advance
    else skipProcessingInstruction s.advance
  else s
termination_by s.xml.length - s.position
decreasing_by
  simp only [PState.advance]
  split
  · split <;> simp <;> omega
  · omega

/-- The comment/DOCTYPE/processing-instruction loop at the top of `parse`
(fuelled: when the input starts with `<!` the body makes no progress and
the JS loop diverges). -/
def parsePreambleLoop (fuel : Nat) (s : PState) : Option PState :=
  match fuel with
  | 0 => none
  | fuel + 1 =>
    if s.position < s.xml.length ∧ s.curr = ['<'] then
      if s.peekAt 1 = ['!'] then
        parsePreambleLoop fuel (skipWhitespace (skipComment s))
      else if s.peekAt 1 = ['?'] then
        parsePreambleLoop fuel (skipWhitespace (skipProcessingInstruction s))
      else some s
    else some s

/-- The body of `parse` up to the `try`: preamble skipping then the root
`parseElement`. -/
def parseRun (fuel : Nat) (xml : JStr) : PRes XmlNode :=
  let s0 : PState := ⟨xml, 0, 1, 1⟩
  let s1 := skipWhitespace s0
  let s2 :=
    if s1.peekAt 5 = "<?xml".data then skipWhitespace (skipDeclaration s1)
    else s1
  match parsePreambleLoop fuel s2 with
  | none => .div
  | some s3 => parseElement fuel s3

/-- `parse` at a given fuel: the `try`/`catch` wrapper turning a throw
into `{ node: null, errors: [(line, column, message, PARSE_ERROR)] }`;
`none` models divergence of the underlying loops. -/
def parseFuel (fuel : Nat) (xml : JStr) :
    Option (Option XmlNode × List ValidationError) :=
  match parseRun fuel xml with
  | .ok node _ => some (some node, [])
  | .err m s' => some (none, [⟨s'.line, s'.column, m, "PARSE_ERROR".data⟩])
  | .div => none

/-- `parse` with enough fuel for any terminating run of this input. -/
def parse (xml : JStr) : Option (Option XmlNode × List ValidationError) :=
  parseFuel (2 * xml.length + 8) xml

end XmlParser

/-- `XsdParser.parseSchema`: parse the schema text, hand back parse
diagnostics unchanged, else build the schema converting the (single
possible) build exception into one `SCHEMA_ERROR` at `(1,1)`. -/
def XsdParser.parseSchema (fuel : Nat) (xsdString : JStr) :
    Option (Option XsdSchema × List ValidationError) :=
  match XmlParser.parseFuel fuel xsdString with
  | none => none
  | some (nodeOpt, errors) =>
    if 0 < errors.length ∨ nodeOpt.isNone then some (none, errors)
    else
      match nodeOpt with
      | some node =>
        (match XsdParser.buildSchema node with
         | .ok schema => some (some schema, [])
         | .thrown m => some (none, errors ++ [⟨1, 1, m, "SCHEMA_ERROR".data⟩]))
      | none => some (none, errors)

/-! ### Spec-side definitions and the concrete fixtures used in the theorems -/

/-- Modelled from the spec (§4.3): the `pattern` facet "requires a
full-value match" — the compiled regex must match the entire value.
Stated for comparison with the code's `jsTest` (substring) semantics. -/
def specFullValueMatch (re : RE) (s : JStr) : Bool := reMatchesWhole re s

/-- Spec cursor arithmetic: the line at position `p` is 1 plus the number
of newline characters in the consumed prefix. -/
def lineOf (xml : JStr) (p : Nat) : Nat := 1 + (xml.take p).count '\n'

/-- Spec cursor arithmetic: the column at position `p` is the number of
characters consumed since the last newline, plus 1. -/
def colOf (xml : JStr) (p : Nat) : Nat :=
  ((xml.take p).reverse.takeWhile (fun c => c ≠ '\n')).length + 1

/-- The cursor triple is consistent with the consumed prefix. -/
def cursorInv (s : XmlParser.PState) : Prop :=
  s.line = lineOf s.xml s.position ∧ s.column = colOf s.xml s.position

/-- The state-and-invariant contract of a parser method's result: the
result state (both on a value and on a throw) keeps the input string and
the cursor invariant. -/
def presInv (s : XmlParser.PState) (r : XmlParser.PRes α) : Prop :=
  match r with
  | .ok _ s' => cursorInv s' ∧ s'.xml = s.xml
  | .err _ s' => cursorInv s' ∧ s'.xml = s.xml
  | .div => True

/-- Every `pattern` facet of the list compiles as a regular expression. -/
def restrictionsPatternsOk (rs : List XsdRestriction) : Bool :=
  rs.all (fun r => r.type ≠ "pattern".data || (compileRegex r.value.toStr).isSome)

/-- Every `pattern` facet copied onto an element definition compiles. -/
def elemPatternsOk (d : XsdElement) : Bool :=
  match d.restrictions with
  | some rs => restrictionsPatternsOk rs
  | none => true

/-- Every `pattern` facet value reachable from the schema compiles: on the
top-level element definitions, on every particle of every complex type,
and on every simple type's facet list. -/
def schemaPatternsOk (s : XsdSchema) : Bool :=
  s.elements.all (fun kv => elemPatternsOk kv.2) &&
  s.complexTypes.all (fun kv => kv.2.elements.all elemPatternsOk) &&
  s.simpleTypes.all (fun kv => restrictionsPatternsOk kv.2.restrictions)

/-- Every entry of the schema's element record is keyed by the stored
definition's own name (as `buildSchema` produces). -/
def elementsKeyedByName (s : XsdSchema) : Bool :=
  s.elements.all (fun kv => decide (kv.2.name = kv.1))

/-- Fixture (C3/C5): the `book` particle, `minOccurs=1 maxOccurs=unbounded`. -/
def bookParticle : XsdElement :=
  .mk "book".data "BookType".data (.rat 1) .unbounded [] [] none none

/-- Fixture: the `library` root element of named complex type `LibraryType`. -/
def libraryDef : XsdElement :=
  .mk "library".data "LibraryType".data (.rat 1) (.num (.rat 1)) [] [] none none

/-- Fixture: attribute `id` with `use="required"`. -/
def idAttr : XsdAttribute := ⟨"id".data, "string".data, "required".data, none, none⟩

/-- Fixture schema: `library` contains repeated `book` elements whose type
declares the required attribute `id`. -/
def libSchema : XsdSchema :=
  ⟨none, [("library".data, libraryDef)],
   [("LibraryType".data, ⟨"LibraryType".data, [bookParticle], []⟩),
    ("BookType".data, ⟨"BookType".data, [], [idAttr]⟩)], [], []⟩

/-- Fixture document: a `library` with no children at all. -/
def emptyLib : XmlNode := .mk "library".data [] [] none none

/-- Fixture: a `book` element with the given attributes. -/
def mkBook (attrs : List (JStr × JStr)) : XmlNode := .mk "book".data attrs [] none none

/-- Fixture document: three `book` siblings, the middle one omitting `id`. -/
def lib3 : XmlNode :=
  .mk "library".data []
    [mkBook [("id".data, "b1".data)], mkBook [], mkBook [("id".data, "b3".data)]]
    none none

/-- Fixture (C1): a schema whose simple type `T` carries the pattern facet
`[`, which does not compile as a regular expression. -/
def badPatternSchema : XsdSchema :=
  ⟨none,
   [("a".data, .mk "a".data "T".data (.rat 1) (.num (.rat 1)) [] [] none none)],
   [],
   [("T".data, ⟨"T".data, "string".data, [⟨"pattern".data, .str "[".data⟩]⟩)],
   []⟩

/-- Fixture (C1): a document node reaching the bad pattern facet. -/
def badPatternNode : XmlNode := .mk "a".data [] [] (some "x".data) none

/-- Fixture (C4): the spec's ISBN pattern facet. -/
def isbnFacet : XsdRestriction := ⟨"pattern".data, .str "[0-9]{3}-[0-9]{10}".data⟩

/-- Fixture (C4): a value that contains — but is not — a match of the
ISBN pattern. -/
def isbnEmbedded : JStr := "x978-0142437171y".data

/-! ### Shared lemmas -/

/-- A successful record lookup returns an entry of the list, keyed as
looked up. -/
theorem recordGet_mem {α : Type} {r : List (JStr × α)} {k : JStr} {v : α}
    (h : recordGet r k = some v) : (k, v) ∈ r := by
  unfold recordGet at h
  cases hf : r.find? (fun p => p.1 = k) with
  | none => rw [hf] at h; simp at h
  | some p =>
    rw [hf] at h
    have hm := List.mem_of_find?_eq_some hf
    have hp := List.find?_some hf
    simp only [decide_eq_true_eq] at hp
    cases p with
    | mk a b =>
      simp only at hp
      simp only [Option.map] at h
      cases h
      subst hp
      exact hm

/-- `VRes.bind` yields a value only when both steps do. -/
theorem vbind_ok {α β : Type} {x : VRes α} {f : α → VRes β} {b : β}
    (h : VRes.bind x f = .ok b) : ∃ a, x = .ok a ∧ f a = .ok b := by
  cases x with
  | ok a => exact ⟨a, rfl, h⟩
  | thrown m => simp [VRes.bind] at h

/-! ### C4 -/

/-- C4 (corrected; the claim as stated is false): the spec's own ISBN
pattern compiled against the value `x978-0142437171y` does not match the
entire value (`specFullValueMatch` is false), yet `validateRestrictions`
emits no diagnostic at all, because the code's `regex.test` accepts a
matching substring. -/
theorem c4_counterexample :
    (compileRegex isbnFacet.value.toStr).map
      (fun re => (specFullValueMatch re isbnEmbedded, jsTest re isbnEmbedded)) =
      some (false, true) ∧
    XmlValidator.validateRestrictions isbnEmbedded [isbnFacet] 1 1
      "isbn".data = .ok [] := by
  constructor
  · decide
  · decide

/-- C4 (amended): for every pattern facet whose value compiles as a
regular expression, `PATTERN_VIOLATION` is emitted iff the regex matches
no substring of the checked value (`RegExp.prototype.test` semantics,
unanchored) — not iff it fails to match the entire value. -/
theorem c4_pattern_substring_test :
    ∀ (v : JStr) (pv : JsVal) (re : RE) (l c : Nat) (en : JStr),
    compileRegex pv.toStr = some re →
    XmlValidator.validateRestrictions v [⟨"pattern".data, pv⟩] l c en =
      .ok (if jsTest re v then []
        else [⟨l, c,
          "Value ".data ++ sqc ++ v ++ sqc ++ " in element ".data ++ sqc ++
          en ++ sqc ++ " does not match pattern ".data ++ sqc ++ pv.toStr ++
          sqc, "PATTERN_VIOLATION".data⟩]) := by
  intro v pv re l c en hc
  unfold XmlValidator.validateRestrictions XmlValidator.validateRestriction1
  simp +decide [hc, VRes.bind, XmlValidator.validateRestrictions]
  cases hjt : jsTest re v <;> simp [hjt]

/-- Witness for C4's amended theorem at the spec's own example: the ISBN
pattern facet against `invalid-isbn` yields exactly the one
`PATTERN_VIOLATION`. -/
theorem c4_witness :
    XmlValidator.validateRestrictions "invalid-isbn".data
      [⟨"pattern".data, JsVal.str "[0-9]{3}-[0-9]{10}".data⟩] 1 1
      "isbn".data =
    .ok [⟨1, 1,
      "Value ".data ++ sqc ++ "invalid-isbn".data ++ sqc ++
      " in element ".data ++ sqc ++ "isbn".data ++ sqc ++
      " does not match pattern ".data ++ sqc ++
      "[0-9]{3}-[0-9]{10}".data ++ sqc, "PATTERN_VIOLATION".data⟩] := by
  have h := c4_pattern_substring_test "invalid-isbn".data
    (JsVal.str "[0-9]{3}-[0-9]{10}".data)
    ((compileRegex "[0-9]{3}-[0-9]{10}".data).get (by decide)) 1 1
    "isbn".data (by simp [JsVal.toStr])
  rw [h]
  decide

/-- Membership in the required-attribute loop output: every required,
absent attribute contributes its diagnostic. -/
theorem mem_requiredAttrErrs {n : XmlNode} {decls : List XsdAttribute}
    {l c : Nat} {a : XsdAttribute} (ha : a ∈ decls)
    (hreq : a.use = "required".data)
    (hmiss : XmlValidator.attrFalsy (recordGet n.attributes a.name) = true) :
    (⟨l, c, "Required attribute ".data ++ sqc ++ a.name ++ sqc ++
      " is missing".data, "MISSING_REQUIRED_ATTRIBUTE".data⟩ :
      ValidationError) ∈ XmlValidator.requiredAttrErrs n decls l c := by
  unfold XmlValidator.requiredAttrErrs
  induction decls with
  | nil => cases ha
  | cons x xs ih =>
    simp only [List.foldr_cons]
    rcases List.mem_cons.mp ha with hax | hax
    · subst hax
      rw [if_pos ⟨hreq, hmiss⟩]
      exact List.mem_append_left _ (List.mem_singleton.mpr rfl)
    · exact List.mem_append_right _ (ih hax)

/-! ### C5 -/

/-- C5: (i) validating the three-`book` library in which exactly the
middle `book` omits the required `id` yields exactly one
`MISSING_REQUIRED_ATTRIBUTE` — sibling `book`s were still validated and
contributed nothing; (ii) attribute validation is skipped entirely when
the element's type does not resolve to a declared complex type;
(iii) whenever it does resolve, every declared `use="required"` attribute
absent from the node (JS-falsy read) contributes its
`MISSING_REQUIRED_ATTRIBUTE` diagnostic. -/
theorem c5_required_attributes :
    (XmlValidator.validate libSchema lib3 = .ok [⟨1, 1,
      "Required attribute ".data ++ sqc ++ "id".data ++ sqc ++
      " is missing".data, "MISSING_REQUIRED_ATTRIBUTE".data⟩]) ∧
    (∀ (s : XsdSchema) (n : XmlNode) (d : XsdElement) (l c : Nat),
      recordGet s.complexTypes d.type = none →
      XmlValidator.validateAttributes s n d l c = []) ∧
    (∀ (s : XsdSchema) (n : XmlNode) (d : XsdElement) (l c : Nat)
      (ct : XsdComplexType) (a : XsdAttribute),
      recordGet s.complexTypes d.type = some ct →
      a ∈ ct.attributes →
      a.use = "required".data →
      XmlValidator.attrFalsy (recordGet n.attributes a.name) = true →
      (⟨l, c, "Required attribute ".data ++ sqc ++ a.name ++ sqc ++
        " is missing".data, "MISSING_REQUIRED_ATTRIBUTE".data⟩ :
        ValidationError) ∈ XmlValidator.validateAttributes s n d l c) := by
  refine ⟨?_, ?_, ?_⟩
  · simp +decide [XmlValidator.validate, XmlValidator.validateElement,
      XmlValidator.validateComplexContent, XmlValidator.validateParticles,
      XmlValidator.validateChildren, XmlValidator.validateAttributes,
      XmlValidator.validateSimpleContent, XmlValidator.validateSimpleTypeContent,
      XmlValidator.validateInlineContent, XmlValidator.validateRestrictions,
      XmlValidator.validateRestriction1, XmlValidator.occurrenceErrs,
      XmlValidator.minOccursError, XmlValidator.maxOccursError,
      XmlValidator.unexpectedErrs, XmlValidator.requiredAttrErrs,
      XmlValidator.presentAttrErrs, XmlValidator.textContentOf, recordGet,
      VRes.bind, XmlNode.name, XmlNode.attributes, XmlNode.children,
      XmlNode.text, XsdElement.name, XsdElement.type, XsdElement.minOccurs,
      XsdElement.maxOccurs, XsdElement.attributes, XsdElement.restrictions,
      libSchema, libraryDef, bookParticle, idAttr, emptyLib, mkBook, lib3,
      XmlValidator.isBuiltInType, truthyOr, JsVal.toStr, JsNum.ltb, JsNum.gtb,
      natDigits, jsNumToString, XmlValidator.attrFalsy, sqc]
  · intro s n d l c h
    unfold XmlValidator.validateAttributes
    rw [h]
  · intro s n d l c ct a hct ha hreq hmiss
    unfold XmlValidator.validateAttributes
    rw [hct]
    exact List.mem_append_left _ (mem_requiredAttrErrs ha hreq hmiss)

/-- Witness for C5 (iii) at the concrete offending `book`: the missing
`id` diagnostic is in the attribute-validation output. -/
theorem c5_witness :
    (⟨1, 1, "Required attribute ".data ++ sqc ++ "id".data ++ sqc ++
      " is missing".data, "MISSING_REQUIRED_ATTRIBUTE".data⟩ :
      ValidationError) ∈
    XmlValidator.validateAttributes libSchema (mkBook []) bookParticle 1 1 :=
  c5_required_attributes.2.2 libSchema (mkBook []) bookParticle 1 1
    ⟨"BookType".data, [], [idAttr]⟩ idAttr rfl (by decide) (by decide)
    (by decide)

/-! ### C3 -/

/-- The particle loop's output contains each particle's occurrence
diagnostics. -/
theorem mem_of_occurrenceErrs {s : XsdSchema} {cs : List XmlNode}
    {ps : List XsdElement} {l c : Nat} {es : List ValidationError}
    {d : XsdElement} (hok : XmlValidator.validateParticles s cs ps l c = .ok es)
    (hd : d ∈ ps) {e : ValidationError}
    (he : e ∈ XmlValidator.occurrenceErrs d
      (cs.filter (fun x => x.name = d.name)).length l c) : e ∈ es := by
  induction ps generalizing es with
  | nil => cases hd
  | cons p rest ih =>
    rw [XmlValidator.validateParticles] at hok
    obtain ⟨es1, h1, h2⟩ := vbind_ok hok
    obtain ⟨es2, h3, h4⟩ := vbind_ok h2
    cases h4
    rcases List.mem_cons.mp hd with hdp | hdp
    · subst hdp
      exact List.mem_append_left _ (List.mem_append_left _ he)
    · exact List.mem_append_right _ (ih h3 hdp)

/-- C3: (i) validating an empty `library` against the fixture schema
(whose `book` particle has `minOccurs=1, maxOccurs=unbounded`) yields
exactly one diagnostic: the `MIN_OCCURS_VIOLATION` whose message names
`book` and the observed count `0`; (ii) in general, for every particle of
a complex type, a matching-children count below `minOccurs` puts that
particle's `MIN_OCCURS_VIOLATION` in the output of
`validateComplexContent`, and a count above a finite `maxOccurs` puts its
`MAX_OCCURS_VIOLATION` there. -/
theorem c3_occurrence_violations :
    (XmlValidator.validate libSchema emptyLib = .ok
      [⟨1, 1, "Element ".data ++ sqc ++ "book".data ++ sqc ++
        " occurs ".data ++ natDigits 0 ++ " times but minimum is ".data ++
        jsNumToString (.rat 1), "MIN_OCCURS_VIOLATION".data⟩]) ∧
    (∀ (s : XsdSchema) (n : XmlNode) (ct : XsdComplexType) (l c : Nat)
      (es : List ValidationError) (d : XsdElement),
      XmlValidator.validateComplexContent s n ct l c = .ok es →
      d ∈ ct.elements →
      let cnt := (((n.children.filter (fun x => x.name ≠ "#text".data)).filter
        (fun x => x.name = d.name)).length)
      (JsNum.ltb (.rat cnt) d.minOccurs = true →
        XmlValidator.minOccursError d cnt l c ∈ es) ∧
      (∀ m : JsNum, d.maxOccurs = .num m → JsNum.gtb (.rat cnt) m = true →
        XmlValidator.maxOccursError d cnt m l c ∈ es)) := by
  constructor
  · simp +decide [XmlValidator.validate, XmlValidator.validateElement,
      XmlValidator.validateComplexContent, XmlValidator.validateParticles,
      XmlValidator.validateChildren, XmlValidator.validateAttributes,
      XmlValidator.validateSimpleContent, XmlValidator.validateSimpleTypeContent,
      XmlValidator.validateInlineContent, XmlValidator.validateRestrictions,
      XmlValidator.validateRestriction1, XmlValidator.occurrenceErrs,
      XmlValidator.minOccursError, XmlValidator.maxOccursError,
      XmlValidator.unexpectedErrs, XmlValidator.requiredAttrErrs,
      XmlValidator.presentAttrErrs, XmlValidator.textContentOf, recordGet,
      VRes.bind, XmlNode.name, XmlNode.attributes, XmlNode.children,
      XmlNode.text, XsdElement.name, XsdElement.type, XsdElement.minOccurs,
      XsdElement.maxOccurs, XsdElement.attributes, XsdElement.restrictions,
      libSchema, libraryDef, bookParticle, idAttr, emptyLib,
      XmlValidator.isBuiltInType, truthyOr, JsVal.toStr, JsNum.ltb, JsNum.gtb,
      natDigits, jsNumToString, XmlValidator.attrFalsy, sqc]
  · intro s n ct l c es d hok hd
    rw [XmlValidator.validateComplexContent] at hok
    obtain ⟨es1, h1, h2⟩ := vbind_ok hok
    cases h2
    constructor
    · intro hlt
      refine List.mem_append_left _ (mem_of_occurrenceErrs h1 hd ?_)
      unfold XmlValidator.occurrenceErrs
      rw [if_pos hlt]
      exact List.mem_append_left _ (List.mem_singleton.mpr rfl)
    · intro m hm hgt
      refine List.mem_append_left _ (mem_of_occurrenceErrs h1 hd ?_)
      unfold XmlValidator.occurrenceErrs
      apply List.mem_append_right
      simp only [hm]
      rw [if_pos hgt]
      exact List.mem_singleton.mpr rfl

/-- Witness for C3 (ii) at the fixture: the `book` particle with zero
matching children yields its `MIN_OCCURS_VIOLATION` inside
`validateComplexContent`'s output. -/
theorem c3_witness :
    XmlValidator.minOccursError bookParticle 0 1 1 ∈
      [⟨1, 1, "Element ".data ++ sqc ++ "book".data ++ sqc ++
        " occurs ".data ++ natDigits 0 ++ " times but minimum is ".data ++
        jsNumToString (.rat 1), "MIN_OCCURS_VIOLATION".data⟩] := by
  have h := (c3_occurrence_violations.2 libSchema emptyLib
    ⟨"LibraryType".data, [bookParticle], []⟩ 1 1
    [⟨1, 1, "Element ".data ++ sqc ++ "book".data ++ sqc ++
      " occurs ".data ++ natDigits 0 ++ " times but minimum is ".data ++
      jsNumToString (.rat 1), "MIN_OCCURS_VIOLATION".data⟩] bookParticle
    (by
      simp +decide [XmlValidator.validateComplexContent,
        XmlValidator.validateParticles, XmlValidator.validateChildren,
        XmlValidator.occurrenceErrs, XmlValidator.minOccursError,
        XmlValidator.maxOccursError, XmlValidator.unexpectedErrs, VRes.bind,
        XmlNode.children, XsdElement.name, XsdElement.minOccurs,
        XsdElement.maxOccurs, bookParticle, emptyLib, JsNum.ltb, JsNum.gtb,
        natDigits, jsNumToString, sqc])
    (List.mem_singleton.mpr rfl)).1
  exact h (by decide)

/-! ### C2 -/

/-- C2: the fail-fast contract of `parse`.  (i) Whenever the underlying
run throws, `parse` returns an absent tree together with exactly one
diagnostic, coded `PARSE_ERROR`, carrying the throw's message and the
cursor position at the throw; (ii) whenever the run succeeds, the tree is
present and the diagnostics list is empty (so no partial tree ever
accompanies an error); (iii) concretely,
`parse("<unclosed><tag>content</unclosed>")` returns an absent tree and
exactly one `PARSE_ERROR`, at line 1 column 33, for the mismatched end
tag. -/
theorem c2_parse_failfast :
    (∀ (fuel : Nat) (xml m : JStr) (s' : XmlParser.PState),
      XmlParser.parseRun fuel xml = .err m s' →
      XmlParser.parseFuel fuel xml =
        some (none, [⟨s'.line, s'.column, m, "PARSE_ERROR".data⟩])) ∧
    (∀ (fuel : Nat) (xml : JStr) (n : XmlNode) (s' : XmlParser.PState),
      XmlParser.parseRun fuel xml = .ok n s' →
      XmlParser.parseFuel fuel xml = some (some n, [])) ∧
    (XmlParser.parse "<unclosed><tag>content</unclosed>".data = some (none,
      [⟨1, 33, "End tag ".data ++ sqc ++ "unclosed".data ++ sqc ++
        " does not match start tag ".data ++ sqc ++ "tag".data ++ sqc,
        "PARSE_ERROR".data⟩])) := by
  refine ⟨?_, ?_, ?_⟩
  · intro fuel xml m s' h
    unfold XmlParser.parseFuel
    rw [h]
  · intro fuel xml n s' h
    unfold XmlParser.parseFuel
    rw [h]
  · simp +decide [XmlParser.parse, XmlParser.parseFuel, XmlParser.parseRun,
      XmlParser.parsePreambleLoop, XmlParser.parseElement,
      XmlParser.parseElementContent, XmlParser.parseAttributes,
      XmlParser.parseAttributeValue, XmlParser.parseAttrValLoop,
      XmlParser.parseName, XmlParser.parseNameLoop, XmlParser.parseEntity,
      XmlParser.parseEntityLoop, XmlParser.parseEndTag,
      XmlParser.finishElement, XmlParser.buildElementNode,
      XmlParser.skipWhitespace, XmlParser.skipDeclaration,
      XmlParser.skipDeclarationLoop, XmlParser.skipComment,
      XmlParser.skipXmlComment, XmlParser.skipXmlCommentLoop,
      XmlParser.skipDoctype, XmlParser.skipDoctypeLoop,
      XmlParser.skipProcessingInstruction, XmlParser.PState.advance,
      XmlParser.PState.curr, XmlParser.PState.peekAt, charAt,
      XmlParser.isWhitespaceS, XmlParser.isNameStartCharS,
      XmlParser.isNameCharS, jsTrim, XmlParser.decodeEntity, recordSet, sqc]

/-- Witness for C2 (i): the wrapper shape applied at the concrete
mismatched-end-tag input. -/
theorem c2_witness :
    XmlParser.parseFuel 74 "<unclosed><tag>content</unclosed>".data =
      some (none, [⟨1, 33, "End tag ".data ++ sqc ++ "unclosed".data ++ sqc ++
        " does not match start tag ".data ++ sqc ++ "tag".data ++ sqc,
        "PARSE_ERROR".data⟩]) := by
  have h := c2_parse_failfast.1 74 "<unclosed><tag>content</unclosed>".data
    ("End tag ".data ++ sqc ++ "unclosed".data ++ sqc ++
      " does not match start tag ".data ++ sqc ++ "tag".data ++ sqc)
    ⟨"<unclosed><tag>content</unclosed>".data, 32, 1, 33⟩
  simp only at h
  apply h
  simp +decide [XmlParser.parseRun, XmlParser.parsePreambleLoop,
    XmlParser.parseElement, XmlParser.parseElementContent,
    XmlParser.parseAttributes, XmlParser.parseAttributeValue,
    XmlParser.parseAttrValLoop, XmlParser.parseName, XmlParser.parseNameLoop,
    XmlParser.parseEntity, XmlParser.parseEntityLoop, XmlParser.parseEndTag,
    XmlParser.finishElement, XmlParser.buildElementNode,
    XmlParser.skipWhitespace, XmlParser.skipDeclaration,
    XmlParser.skipDeclarationLoop, XmlParser.skipComment,
    XmlParser.skipXmlComment, XmlParser.skipXmlCommentLoop,
    XmlParser.skipDoctype, XmlParser.skipDoctypeLoop,
    XmlParser.skipProcessingInstruction, XmlParser.PState.advance,
    XmlParser.PState.curr, XmlParser.PState.peekAt, charAt,
    XmlParser.isWhitespaceS, XmlParser.isNameStartCharS,
    XmlParser.isNameCharS, jsTrim, XmlParser.decodeEntity, recordSet, sqc]

/-! ### C8 -/

/-- C8: a missing end tag is silently accepted.  (i)(ii) The two example
inputs that end before any end tag parse to a present tree with no
diagnostics; (iii) in general, at end of input `parseEndTag` skips the
check entirely and succeeds without moving (so only a present-but-
mismatched end tag can fail the parse). -/
theorem c8_missing_end_tag_accepted :
    (XmlParser.parse "<a>text".data = some
      (some (.mk "a".data [] [] (some "text".data) none), [])) ∧
    (XmlParser.parse "<a><b/>".data = some
      (some (.mk "a".data [] [.mk "b".data [] [] none none] none none), [])) ∧
    (∀ (name : JStr) (s : XmlParser.PState),
      s.xml.length ≤ s.position → XmlParser.parseEndTag name s = .ok () s) := by
  refine ⟨?_, ?_, ?_⟩
  · simp +decide [XmlParser.parse, XmlParser.parseFuel, XmlParser.parseRun,
      XmlParser.parsePreambleLoop, XmlParser.parseElement,
      XmlParser.parseElementContent, XmlParser.parseAttributes,
      XmlParser.parseAttributeValue, XmlParser.parseAttrValLoop,
      XmlParser.parseName, XmlParser.parseNameLoop, XmlParser.parseEntity,
      XmlParser.parseEntityLoop, XmlParser.parseEndTag,
      XmlParser.finishElement, XmlParser.buildElementNode,
      XmlParser.skipWhitespace, XmlParser.skipDeclaration,
      XmlParser.skipDeclarationLoop, XmlParser.skipComment,
      XmlParser.skipXmlComment, XmlParser.skipXmlCommentLoop,
      XmlParser.skipDoctype, XmlParser.skipDoctypeLoop,
      XmlParser.skipProcessingInstruction, XmlParser.PState.advance,
      XmlParser.PState.curr, XmlParser.PState.peekAt, charAt,
      XmlParser.isWhitespaceS, XmlParser.isNameStartCharS,
      XmlParser.isNameCharS, jsTrim, XmlParser.decodeEntity, recordSet, sqc]
  · simp +decide [XmlParser.parse, XmlParser.parseFuel, XmlParser.parseRun,
      XmlParser.parsePreambleLoop, XmlParser.parseElement,
      XmlParser.parseElementContent, XmlParser.parseAttributes,
      XmlParser.parseAttributeValue, XmlParser.parseAttrValLoop,
      XmlParser.parseName, XmlParser.parseNameLoop, XmlParser.parseEntity,
      XmlParser.parseEntityLoop, XmlParser.parseEndTag,
      XmlParser.finishElement, XmlParser.buildElementNode,
      XmlParser.skipWhitespace, XmlParser.skipDeclaration,
      XmlParser.skipDeclarationLoop, XmlParser.skipComment,
      XmlParser.skipXmlComment, XmlParser.skipXmlCommentLoop,
      XmlParser.skipDoctype, XmlParser.skipDoctypeLoop,
      XmlParser.skipProcessingInstruction, XmlParser.PState.advance,
      XmlParser.PState.curr, XmlParser.PState.peekAt, charAt,
      XmlParser.isWhitespaceS, XmlParser.isNameStartCharS,
      XmlParser.isNameCharS, jsTrim, XmlParser.decodeEntity, recordSet, sqc]
  · intro name s h
    unfold XmlParser.parseEndTag
    have hc : s.curr = [] := by
      unfold XmlParser.PState.curr charAt
      rw [List.getElem?_eq_none h]
    rw [if_neg]
    intro ⟨h1, _⟩
    rw [hc] at h1
    cases h1

/-- Witness for C8 (iii): at the end of `"<a>text"` the end-tag check is
skipped. -/
theorem c8_witness :
    XmlParser.parseEndTag "a".data ⟨"<a>text".data, 7, 1, 8⟩ =
      .ok () ⟨"<a>text".data, 7, 1, 8⟩ :=
  c8_missing_end_tag_accepted.2.2 "a".data ⟨"<a>text".data, 7, 1, 8⟩
    (by decide)

/-! ### C6 -/

/-- C6 (corrected; the claim as stated is false): the document
`<a:b:schema/>` parses to a root whose local name (prefix stripped, as
`getLocalName` computes it) is `b:schema`, not `schema`, yet `parseSchema`
returns a present schema and no diagnostic — because the code accepts any
root name that is exactly `schema` or merely ends in `:schema`. -/
theorem c6_counterexample :
    (XsdParser.parseSchema 34 "<a:b:schema/>".data).map
      (fun p => (p.1.isSome, p.2)) = some (true, []) ∧
    XsdParser.getLocalName "a:b:schema".data ≠ "schema".data := by
  constructor
  · simp +decide [XsdParser.parseSchema, XsdParser.buildSchema,
      XsdParser.parseElement, XsdParser.elemChildLoop,
      XsdParser.parseComplexType, XsdParser.ctChildLoop,
      XsdParser.ctGroupLoop, XsdParser.parseSimpleType,
      XsdParser.parseAttribute, XsdParser.getLocalName, recordGet, recordSet,
      jsStartsWith, jsEndsWith, XmlParser.parse, XmlParser.parseFuel,
      XmlParser.parseRun, XmlParser.parsePreambleLoop, XmlParser.parseElement,
      XmlParser.parseElementContent, XmlParser.parseAttributes,
      XmlParser.parseAttributeValue, XmlParser.parseAttrValLoop,
      XmlParser.parseName, XmlParser.parseNameLoop, XmlParser.parseEntity,
      XmlParser.parseEntityLoop, XmlParser.parseEndTag,
      XmlParser.finishElement, XmlParser.buildElementNode,
      XmlParser.skipWhitespace, XmlParser.skipDeclaration,
      XmlParser.skipDeclarationLoop, XmlParser.skipComment,
      XmlParser.skipXmlComment, XmlParser.skipXmlCommentLoop,
      XmlParser.skipDoctype, XmlParser.skipDoctypeLoop,
      XmlParser.skipProcessingInstruction, XmlParser.PState.advance,
      XmlParser.PState.curr, XmlParser.PState.peekAt, charAt,
      XmlParser.isWhitespaceS, XmlParser.isNameStartCharS,
      XmlParser.isNameCharS, jsTrim, XmlParser.decodeEntity, sqc]
  · decide

/-- C6 (amended): `parseSchema` (i) hands back the parser's diagnostics
unchanged, with an absent schema, whenever parsing yields any diagnostic
or no tree, and schema building never runs; (ii) given a tree whose root
name is neither exactly `schema` nor ending in `:schema` (the code's
actual check — not local-name equality), building fails with exactly one
`SCHEMA_ERROR` at `(1,1)` and no partial schema; (iii) otherwise a schema
is returned with no diagnostics. -/
theorem c6_parse_schema_outcomes :
    (∀ (fuel : Nat) (x : JStr) (node? : Option XmlNode)
      (errs : List ValidationError),
      XmlParser.parseFuel fuel x = some (node?, errs) →
      (0 < errs.length ∨ node?.isNone) →
      XsdParser.parseSchema fuel x = some (none, errs)) ∧
    (∀ (fuel : Nat) (x : JStr) (n : XmlNode),
      XmlParser.parseFuel fuel x = some (some n, []) →
      ¬(n.name = "schema".data ∨ jsEndsWith n.name ":schema".data = true) →
      XsdParser.parseSchema fuel x = some (none,
        [⟨1, 1, "Root element must be schema".data, "SCHEMA_ERROR".data⟩])) ∧
    (∀ (fuel : Nat) (x : JStr) (n : XmlNode),
      XmlParser.parseFuel fuel x = some (some n, []) →
      (n.name = "schema".data ∨ jsEndsWith n.name ":schema".data = true) →
      ∃ sch, XsdParser.parseSchema fuel x = some (some sch, [])) := by
  refine ⟨?_, ?_, ?_⟩
  · intro fuel x node? errs h hbad
    unfold XsdParser.parseSchema
    rw [h]
    dsimp only
    rw [if_pos]
    rcases hbad with hb | hb
    · exact Or.inl hb
    · exact Or.inr (by simp [hb])
  · intro fuel x n h hname
    unfold XsdParser.parseSchema
    rw [h]
    dsimp only
    rw [if_neg (by simp)]
    unfold XsdParser.buildSchema
    rw [if_pos]
    · rfl
    · push_neg at hname
      exact ⟨hname.1, by simp [hname.2]⟩
  · intro fuel x n h hname
    unfold XsdParser.parseSchema
    rw [h]
    dsimp only
    rw [if_neg (by simp)]
    unfold XsdParser.buildSchema
    rw [if_neg]
    · exact ⟨_, rfl⟩
    · intro ⟨h1, h2⟩
      rcases hname with hn | hn
      · exact h1 hn
      · exact h2 hn

/-- Witness for C6 (ii) at `<notschema/>`: one `SCHEMA_ERROR` at (1,1)
and no schema. -/
theorem c6_witness :
    XsdParser.parseSchema 32 "<notschema/>".data = some (none,
      [⟨1, 1, "Root element must be schema".data, "SCHEMA_ERROR".data⟩]) := by
  apply c6_parse_schema_outcomes.2.1 32 "<notschema/>".data
    (.mk "notschema".data [] [] none none)
  · simp +decide [XmlParser.parseFuel, XmlParser.parseRun,
      XmlParser.parsePreambleLoop, XmlParser.parseElement,
      XmlParser.parseElementContent, XmlParser.parseAttributes,
      XmlParser.parseAttributeValue, XmlParser.parseAttrValLoop,
      XmlParser.parseName, XmlParser.parseNameLoop, XmlParser.parseEntity,
      XmlParser.parseEntityLoop, XmlParser.parseEndTag,
      XmlParser.finishElement, XmlParser.buildElementNode,
      XmlParser.skipWhitespace, XmlParser.skipDeclaration,
      XmlParser.skipDeclarationLoop, XmlParser.skipComment,
      XmlParser.skipXmlComment, XmlParser.skipXmlCommentLoop,
      XmlParser.skipDoctype, XmlParser.skipDoctypeLoop,
      XmlParser.skipProcessingInstruction, XmlParser.PState.advance,
      XmlParser.PState.curr, XmlParser.PState.peekAt, charAt,
      XmlParser.isWhitespaceS, XmlParser.isNameStartCharS,
      XmlParser.isNameCharS, jsTrim, XmlParser.decodeEntity, recordSet, sqc]
  · decide

/-! ### C1 -/

/-- One restriction facet evaluates without throwing provided a `pattern`
facet's value compiles. -/
theorem restriction1_ok {v : JStr} {r : XsdRestriction} {l c : Nat}
    {e : JStr}
    (h : r.type = "pattern".data → (compileRegex r.value.toStr).isSome = true) :
    ∃ es, XmlValidator.validateRestriction1 v r l c e = .ok es := by
  unfold XmlValidator.validateRestriction1
  split
  · exact ⟨_, rfl⟩
  split
  · exact ⟨_, rfl⟩
  split
  · rename_i hpat
    obtain ⟨re, hre⟩ := Option.isSome_iff_exists.mp (h hpat)
    rw [hre]
    exact ⟨_, rfl⟩
  split
  · exact ⟨_, rfl⟩
  split
  · exact ⟨_, rfl⟩
  split
  · exact ⟨_, rfl⟩
  exact ⟨_, rfl⟩

/-- A facet list evaluates without throwing provided its `pattern` facets
compile. -/
theorem restrictions_ok {v : JStr} {rs : List XsdRestriction} {l c : Nat}
    {e : JStr} (h : restrictionsPatternsOk rs = true) :
    ∃ es, XmlValidator.validateRestrictions v rs l c e = .ok es := by
  induction rs with
  | nil => exact ⟨[], rfl⟩
  | cons r rest ih =>
    unfold XmlValidator.validateRestrictions
    unfold restrictionsPatternsOk at h
    simp only [List.all_cons, Bool.and_eq_true] at h
    obtain ⟨h1, h2⟩ := h
    obtain ⟨es1, he1⟩ := restriction1_ok (v := v) (r := r) (l := l) (c := c)
      (e := e) (by
        intro hp
        simp [hp] at h1
        exact h1)
    rw [he1]
    obtain ⟨es2, he2⟩ := ih h2
    dsimp only [VRes.bind]
    rw [he2]
    exact ⟨_, rfl⟩

/-- `validateSimpleContent` never throws when the element's own pattern
facets compile. -/
theorem simpleContent_ok {n : XmlNode} {d : XsdElement} {l c : Nat}
    (h : elemPatternsOk d = true) :
    ∃ es, XmlValidator.validateSimpleContent n d l c = .ok es := by
  unfold XmlValidator.validateSimpleContent
  split
  · exact ⟨_, rfl⟩
  · cases hr : d.restrictions with
    | none => exact ⟨_, rfl⟩
    | some rs =>
      unfold elemPatternsOk at h
      rw [hr] at h
      simp only at h
      obtain ⟨es, he⟩ := restrictions_ok (v := XmlValidator.textContentOf n)
        (l := l) (c := c) (e := n.name) h
      dsimp only
      rw [he]
      exact ⟨_, rfl⟩

/-- `validateSimpleTypeContent` never throws when the simple type's
pattern facets compile. -/
theorem simpleTypeContent_ok {n : XmlNode} {st : XsdSimpleType} {l c : Nat}
    (h : restrictionsPatternsOk st.restrictions = true) :
    ∃ es, XmlValidator.validateSimpleTypeContent n st l c = .ok es := by
  unfold XmlValidator.validateSimpleTypeContent
  obtain ⟨es, he⟩ := restrictions_ok (v := XmlValidator.textContentOf n)
    (l := l) (c := c) (e := n.name) h
  dsimp only
  rw [he]
  exact ⟨_, rfl⟩

/-- `validateInlineContent` never throws when the element's own pattern
facets compile. -/
theorem inlineContent_ok {n : XmlNode} {d : XsdElement} {l c : Nat}
    (h : elemPatternsOk d = true) :
    ∃ es, XmlValidator.validateInlineContent n d l c = .ok es := by
  unfold XmlValidator.validateInlineContent
  cases hr : d.restrictions with
  | none => exact ⟨_, rfl⟩
  | some rs =>
    unfold elemPatternsOk at h
    rw [hr] at h
    exact restrictions_ok h

/-- `validateElement` never throws on a schema all of whose reachable
pattern facets compile (the core induction behind C1). -/
theorem validateElement_total (s : XsdSchema)
    (hs : schemaPatternsOk s = true) :
    ∀ (n : XmlNode) (d : XsdElement) (l c : Nat), elemPatternsOk d = true →
    ∃ es, XmlValidator.validateElement s n d l c = .ok es := by
  have hs' := hs
  unfold schemaPatternsOk at hs'
  simp only [Bool.and_eq_true, List.all_eq_true] at hs'
  obtain ⟨⟨hsel, hsct⟩, hsst⟩ := hs'
  intro n d l c
  induction n, d, l, c using XmlValidator.validateElement.induct s
    _
    (fun n ct l c =>
      (∀ p ∈ ct.elements, elemPatternsOk p = true) →
      ∃ es, XmlValidator.validateComplexContent s n ct l c = .ok es)
    (fun cs ps l c =>
      (∀ p ∈ ps, elemPatternsOk p = true) →
      ∃ es, XmlValidator.validateParticles s cs ps l c = .ok es)
    (fun cs d l c =>
      elemPatternsOk d = true →
      ∃ es, XmlValidator.validateChildren s cs d l c = .ok es) with
  | case1 n d l c hne =>
    first
      | intro _
      | skip
    rw [XmlValidator.validateElement]
    rw [if_pos hne]
    exact ⟨_, rfl⟩
  | case2 n d l c hne ih =>
    first
      | intro hd
      | rename_i hd
    rw [XmlValidator.validateElement]
    rw [if_neg hne]
    by_cases hb : XmlValidator.isBuiltInType d.type = true
    · rw [if_pos hb]
      obtain ⟨es, he⟩ := simpleContent_ok (n := n) (l := l) (c := c) hd
      dsimp only
      rw [he]
      exact ⟨_, rfl⟩
    · rw [if_neg hb]
      cases hct : recordGet s.complexTypes d.type with
      | some ct =>
        obtain ⟨es, he⟩ := ih ct (hsct _ (recordGet_mem hct))
        dsimp only
        rw [he]
        exact ⟨_, rfl⟩
      | none =>
        cases hst : recordGet s.simpleTypes d.type with
        | some st =>
          obtain ⟨es, he⟩ := simpleTypeContent_ok (n := n) (l := l) (c := c)
            (hsst _ (recordGet_mem hst))
          dsimp only
          rw [he]
          exact ⟨_, rfl⟩
        | none =>
          by_cases hin : jsStartsWith d.type "#inline-".data = true
          · rw [if_pos hin]
            obtain ⟨es, he⟩ := inlineContent_ok (n := n) (l := l) (c := c) hd
            dsimp only
            rw [he]
            exact ⟨_, rfl⟩
          · rw [if_neg hin]
            exact ⟨_, rfl⟩
  | case3 n ct l c childElems ih =>
    first
      | intro hps
      | rename_i hps
    rw [XmlValidator.validateComplexContent]
    obtain ⟨es, he⟩ := ih hps
    have he' : XmlValidator.validateParticles s
        (n.children.filter (fun c => decide (c.name ≠ "#text".data))) ct.elements
        l c = VRes.ok es := he
    rw [he']
    exact ⟨_, rfl⟩
  | case4 cs l c =>
    first
      | intro _
      | skip
    exact ⟨[], by rw [XmlValidator.validateParticles]⟩
  | case5 cs l c d rest matching ih4 ih3 =>
    first
      | intro hps
      | rename_i hps
    rw [XmlValidator.validateParticles]
    obtain ⟨es1, he1⟩ := ih4 (hps d (List.mem_cons_self d rest))
    have he1' : XmlValidator.validateChildren s
        (cs.filter (fun c => decide (c.name = d.name))) d l c =
        VRes.ok es1 := he1
    rw [he1']
    dsimp only [VRes.bind]
    obtain ⟨es2, he2⟩ := ih3 (fun p hp => hps p (List.mem_cons_of_mem d hp))
    rw [he2]
    exact ⟨_, rfl⟩
  | case6 d l c =>
    first
      | intro _
      | skip
    exact ⟨[], by rw [XmlValidator.validateChildren]⟩
  | case7 d l c x xs ih1 ih4 =>
    first
      | intro hd
      | rename_i hd
    rw [XmlValidator.validateChildren]
    obtain ⟨es1, he1⟩ := ih1 hd
    rw [he1]
    dsimp only [VRes.bind]
    obtain ⟨es2, he2⟩ := ih4 hd
    rw [he2]
    exact ⟨_, rfl⟩

/-- C1 (corrected; the claim as stated is false): `validate` has no
`try`/`catch`, so when a reached `pattern` facet's value does not compile
as a regular expression (`[` here), the `RegExp` constructor's exception
escapes `validate` — it is not represented in a returned diagnostics
list. -/
theorem c1_validate_throws_on_bad_pattern :
    XmlValidator.validate badPatternSchema badPatternNode =
      .thrown "Invalid regular expression".data := by
  simp +decide [XmlValidator.validate, XmlValidator.validateElement,
    XmlValidator.validateComplexContent, XmlValidator.validateParticles,
    XmlValidator.validateChildren, XmlValidator.validateAttributes,
    XmlValidator.validateSimpleContent, XmlValidator.validateSimpleTypeContent,
    XmlValidator.validateInlineContent, XmlValidator.validateRestrictions,
    XmlValidator.validateRestriction1, XmlValidator.textContentOf, recordGet,
    VRes.bind, XmlNode.name, XmlNode.attributes, XmlNode.children,
    XmlNode.text, XsdElement.name, XsdElement.type, XsdElement.restrictions,
    badPatternSchema, badPatternNode, XmlValidator.isBuiltInType, truthyOr,
    JsVal.toStr, XmlValidator.requiredAttrErrs, XmlValidator.presentAttrErrs,
    compileRegex, sqc]

/-- C1 (amended): for every document node, `validate` returns a
diagnostics list — no exception escapes — provided every pattern facet
value reachable from the schema compiles as a regular expression; the one
remaining failure mode is the uncaught `RegExp` compile exception. -/
theorem c1_validate_total_when_patterns_compile :
    ∀ (s : XsdSchema) (n : XmlNode), schemaPatternsOk s = true →
    ∃ errs, XmlValidator.validate s n = .ok errs := by
  intro s n hs
  unfold XmlValidator.validate
  cases hroot : recordGet s.elements n.name with
  | none => exact ⟨_, rfl⟩
  | some d =>
    have hd : elemPatternsOk d = true := by
      have hs' := hs
      unfold schemaPatternsOk at hs'
      simp only [Bool.and_eq_true, List.all_eq_true] at hs'
      exact hs'.1.1 _ (recordGet_mem hroot)
    exact validateElement_total s hs n d 1 1 hd

/-- Witness for C1's amended theorem at the fixture schema (no pattern
facets, so they trivially all compile). -/
theorem c1_witness :
    schemaPatternsOk libSchema = true ∧
    ∃ errs, XmlValidator.validate libSchema emptyLib = .ok errs :=
  ⟨by decide, c1_validate_total_when_patterns_compile libSchema emptyLib
    (by decide)⟩

/-! ### C10 -/

/-- Diagnostics from the required-attribute loop never carry
`ELEMENT_MISMATCH`. -/
theorem requiredAttrErrs_code {n : XmlNode} {decls : List XsdAttribute}
    {l c : Nat} {e : ValidationError}
    (he : e ∈ XmlValidator.requiredAttrErrs n decls l c) :
    e.code ≠ "ELEMENT_MISMATCH".data := by
  unfold XmlValidator.requiredAttrErrs at he
  induction decls with
  | nil => cases he
  | cons x xs ih =>
    simp only [List.foldr_cons] at he
    rcases List.mem_append.mp he with h | h
    · split at h
      · cases List.mem_singleton.mp h
        simp +decide
      · cases h
    · exact ih h

/-- Diagnostics from the present-attribute loop never carry
`ELEMENT_MISMATCH`. -/
theorem presentAttrErrs_code {entries : List (JStr × JStr)}
    {decls : List XsdAttribute} {l c : Nat} {e : ValidationError}
    (he : e ∈ XmlValidator.presentAttrErrs entries decls l c) :
    e.code ≠ "ELEMENT_MISMATCH".data := by
  unfold XmlValidator.presentAttrErrs at he
  induction entries with
  | nil => cases he
  | cons x xs ih =>
    simp only [List.foldr_cons] at he
    rcases List.mem_append.mp he with h | h
    · split at h
      · cases List.mem_singleton.mp h
        simp +decide
      · rcases List.mem_append.mp h with h2 | h2
        · split at h2
          · split at h2
            · cases List.mem_singleton.mp h2
              simp +decide
            · cases h2
          · cases h2
        · split at h2
          · cases List.mem_singleton.mp h2
            simp +decide
          · cases h2
    · exact ih h

/-- Diagnostics from attribute validation never carry `ELEMENT_MISMATCH`. -/
theorem validateAttributes_code {s : XsdSchema} {n : XmlNode}
    {d : XsdElement} {l c : Nat} {e : ValidationError}
    (he : e ∈ XmlValidator.validateAttributes s n d l c) :
    e.code ≠ "ELEMENT_MISMATCH".data := by
  unfold XmlValidator.validateAttributes at he
  split at he
  · cases he
  · rcases List.mem_append.mp he with h | h
    · exact requiredAttrErrs_code h
    · exact presentAttrErrs_code h

/-- Diagnostics from one facet check never carry `ELEMENT_MISMATCH`. -/
theorem restriction1_code {v : JStr} {r : XsdRestriction} {l c : Nat}
    {en : JStr} {es : List ValidationError} {e : ValidationError}
    (hok : XmlValidator.validateRestriction1 v r l c en = .ok es)
    (he : e ∈ es) : e.code ≠ "ELEMENT_MISMATCH".data := by
  unfold XmlValidator.validateRestriction1 at hok
  split at hok
  · cases hok
    split at he
    · cases List.mem_singleton.mp he
      simp +decide
    · cases he
  split at hok
  · cases hok
    split at he
    · cases List.mem_singleton.mp he
      simp +decide
    · cases he
  split at hok
  · split at hok
    · cases hok
    · cases hok
      split at he
      · cases List.mem_singleton.mp he
        simp +decide
      · cases he
  split at hok
  · cases hok
    cases he
  split at hok
  · cases hok
    split at he
    · cases List.mem_singleton.mp he
      simp +decide
    · cases he
  split at hok
  · cases hok
    split at he
    · cases List.mem_singleton.mp he
      simp +decide
    · cases he
  · cases hok
    cases he

/-- Diagnostics from facet evaluation never carry `ELEMENT_MISMATCH`. -/
theorem restrictions_code {v : JStr} {rs : List XsdRestriction} {l c : Nat}
    {en : JStr} {es : List ValidationError} {e : ValidationError}
    (hok : XmlValidator.validateRestrictions v rs l c en = .ok es)
    (he : e ∈ es) : e.code ≠ "ELEMENT_MISMATCH".data := by
  induction rs generalizing es with
  | nil =>
    cases hok
    cases he
  | cons r rest ih =>
    rw [XmlValidator.validateRestrictions] at hok
    obtain ⟨es1, h1, h2⟩ := vbind_ok hok
    obtain ⟨es2, h3, h4⟩ := vbind_ok h2
    cases h4
    rcases List.mem_append.mp he with h | h
    · exact restriction1_code h1 h
    · exact ih h3 h

/-- Diagnostics from built-in-typed content never carry `ELEMENT_MISMATCH`. -/
theorem simpleContent_code {n : XmlNode} {d : XsdElement} {l c : Nat}
    {es : List ValidationError} {e : ValidationError}
    (hok : XmlValidator.validateSimpleContent n d l c = .ok es)
    (he : e ∈ es) : e.code ≠ "ELEMENT_MISMATCH".data := by
  unfold XmlValidator.validateSimpleContent at hok
  split at hok
  · cases hok
    cases List.mem_singleton.mp he
    simp +decide
  · split at hok
    · obtain ⟨es1, h1, h2⟩ := vbind_ok hok
      cases h2
      rcases List.mem_append.mp he with h | h
      · split at h
        · cases List.mem_singleton.mp h
          simp +decide
        · cases h
      · exact restrictions_code h1 h
    · cases hok
      split at he
      · cases List.mem_singleton.mp he
        simp +decide
      · cases he

/-- Diagnostics from named-simple-type content never carry
`ELEMENT_MISMATCH`. -/
theorem simpleTypeContent_code {n : XmlNode} {st : XsdSimpleType} {l c : Nat}
    {es : List ValidationError} {e : ValidationError}
    (hok : XmlValidator.validateSimpleTypeContent n st l c = .ok es)
    (he : e ∈ es) : e.code ≠ "ELEMENT_MISMATCH".data := by
  unfold XmlValidator.validateSimpleTypeContent at hok
  obtain ⟨es1, h1, h2⟩ := vbind_ok hok
  cases h2
  rcases List.mem_append.mp he with h | h
  · split at h
    · cases List.mem_singleton.mp h
      simp +decide
    · cases h
  · exact restrictions_code h1 h

/-- Diagnostics from inline-typed content never carry `ELEMENT_MISMATCH`. -/
theorem inlineContent_code {n : XmlNode} {d : XsdElement} {l c : Nat}
    {es : List ValidationError} {e : ValidationError}
    (hok : XmlValidator.validateInlineContent n d l c = .ok es)
    (he : e ∈ es) : e.code ≠ "ELEMENT_MISMATCH".data := by
  unfold XmlValidator.validateInlineContent at hok
  split at hok
  · exact restrictions_code hok he
  · cases hok
    cases he

/-- Occurrence diagnostics never carry `ELEMENT_MISMATCH`. -/
theorem occurrenceErrs_code {d : XsdElement} {cnt l c : Nat}
    {e : ValidationError} (he : e ∈ XmlValidator.occurrenceErrs d cnt l c) :
    e.code ≠ "ELEMENT_MISMATCH".data := by
  unfold XmlValidator.occurrenceErrs at he
  rcases List.mem_append.mp he with h | h
  · split at h
    · cases List.mem_singleton.mp h
      simp +decide [XmlValidator.minOccursError]
    · cases h
  · split at h
    · cases h
    · split at h
      · cases List.mem_singleton.mp h
        simp +decide [XmlValidator.maxOccursError]
      · cases h

/-- Unexpected-element diagnostics never carry `ELEMENT_MISMATCH`. -/
theorem unexpectedErrs_code {cs : List XmlNode} {decls : List XsdElement}
    {l c : Nat} {e : ValidationError}
    (he : e ∈ XmlValidator.unexpectedErrs cs decls l c) :
    e.code ≠ "ELEMENT_MISMATCH".data := by
  unfold XmlValidator.unexpectedErrs at he
  induction cs with
  | nil => cases he
  | cons x xs ih =>
    simp only [List.foldr_cons] at he
    rcases List.mem_append.mp he with h | h
    · split at h
      · cases List.mem_singleton.mp h
        simp +decide
      · cases h
    · exact ih h

/-- The core induction behind C10: once the element name matches its
definition (as it does at the root under the keyed-record hypothesis, and
in every recursive call by construction), no produced diagnostic carries
`ELEMENT_MISMATCH`. -/
theorem validateElement_no_mismatch (s : XsdSchema) :
    ∀ (n : XmlNode) (d : XsdElement) (l c : Nat), n.name = d.name →
    ∀ es, XmlValidator.validateElement s n d l c = .ok es →
    ∀ e ∈ es, e.code ≠ "ELEMENT_MISMATCH".data := by
  intro n d l c
  induction n, d, l, c using XmlValidator.validateElement.induct s
    _
    (fun n ct l c =>
      ∀ es, XmlValidator.validateComplexContent s n ct l c = .ok es →
      ∀ e ∈ es, e.code ≠ "ELEMENT_MISMATCH".data)
    (fun cs ps l c =>
      ∀ es, XmlValidator.validateParticles s cs ps l c = .ok es →
      ∀ e ∈ es, e.code ≠ "ELEMENT_MISMATCH".data)
    (fun cs d l c =>
      (∀ x ∈ cs, x.name = d.name) →
      ∀ es, XmlValidator.validateChildren s cs d l c = .ok es →
      ∀ e ∈ es, e.code ≠ "ELEMENT_MISMATCH".data) with
  | case1 n d l c hne =>
    first
      | intro hname
      | rename_i hname
    exact absurd hname hne
  | case2 n d l c hne ih =>
    first
      | intro hname
      | rename_i hname
    intro es hok e he
    rw [XmlValidator.validateElement] at hok
    rw [if_neg hne] at hok
    obtain ⟨es1, h1, h2⟩ := vbind_ok hok
    cases h2
    rcases List.mem_append.mp he with h | h
    · exact validateAttributes_code h
    · split at h1
      · exact simpleContent_code h1 h
      · split at h1
        · exact ih _ _ h1 e h
        · split at h1
          · exact simpleTypeContent_code h1 h
          · split at h1
            · exact inlineContent_code h1 h
            · cases h1
              cases h
  | case3 n ct l c childElems ih =>
    first
      | intro es hok e he
      | rename_i es hok e he
    rw [XmlValidator.validateComplexContent] at hok
    obtain ⟨es1, h1, h2⟩ := vbind_ok hok
    cases h2
    have h1' : XmlValidator.validateParticles s childElems ct.elements l c =
      VRes.ok es1 := h1
    rcases List.mem_append.mp he with h | h
    · exact ih _ h1' e h
    · exact unexpectedErrs_code h
  | case4 cs l c =>
    first
      | intro es hok e he
      | rename_i es hok e he
    rw [XmlValidator.validateParticles] at hok
    cases hok
    cases he
  | case5 cs l c d rest matching ih4 ih3 =>
    first
      | intro es hok e he
      | rename_i es hok e he
    rw [XmlValidator.validateParticles] at hok
    obtain ⟨es1, h1, h2⟩ := vbind_ok hok
    obtain ⟨es2, h3, h4⟩ := vbind_ok h2
    cases h4
    have h1' : XmlValidator.validateChildren s matching d l c =
      VRes.ok es1 := h1
    rcases List.mem_append.mp he with h | h
    · rcases List.mem_append.mp h with h' | h'
      · exact occurrenceErrs_code h'
      · refine ih4 ?_ _ h1' e h'
        intro x hx
        have := List.mem_filter.mp hx
        simpa using this.2
    · exact ih3 _ h3 e h
  | case6 d l c =>
    first
      | intro _ es hok e he
      | rename_i es hok e he
    rw [XmlValidator.validateChildren] at hok
    cases hok
    cases he
  | case7 d l c x xs ih1 ih4 =>
    first
      | intro hnames es hok e he
      | rename_i hnames es hok e he
    rw [XmlValidator.validateChildren] at hok
    obtain ⟨es1, h1, h2⟩ := vbind_ok hok
    obtain ⟨es2, h3, h4⟩ := vbind_ok h2
    cases h4
    rcases List.mem_append.mp he with h | h
    · exact ih1 (hnames x (List.mem_cons_self x xs)) _ h1 e h
    · exact ih4 (fun y hy => hnames y (List.mem_cons_of_mem x hy)) _ h3 e h

/-- Entries written by `recordSet` under the value's own name keep the
keyed-by-name property. -/
theorem recordSet_keyed {r : List (JStr × XsdElement)} {el : XsdElement}
    (h : ∀ kv ∈ r, kv.2.name = kv.1) :
    ∀ kv ∈ recordSet r el.name el, kv.2.name = kv.1 := by
  induction r with
  | nil =>
    intro kv hkv
    unfold recordSet at hkv
    cases List.mem_singleton.mp hkv
    rfl
  | cons x xs ih =>
    intro kv hkv
    unfold recordSet at hkv
    split at hkv
    · rcases List.mem_cons.mp hkv with h2 | h2
      · subst h2
        rename_i heq
        rw [heq]
      · exact h kv (List.mem_cons_of_mem x h2)
    · rcases List.mem_cons.mp hkv with h2 | h2
      · subst h2
        exact h x (List.mem_cons_self x xs)
      · exact ih (fun y hy => h y (List.mem_cons_of_mem x hy)) kv h2

/-- C10: (i) `validate` never returns an `ELEMENT_MISMATCH` diagnostic on
a schema whose element record is keyed by the definitions' own names —
the root definition is looked up under the node's own name, and every
recursive call receives only children filtered to the particle's name;
(ii) `buildSchema` keys each element definition by its own name, so every
schema it builds satisfies that hypothesis. -/
theorem c10_no_element_mismatch :
    (∀ (s : XsdSchema) (n : XmlNode) (errs : List ValidationError),
      elementsKeyedByName s = true →
      XmlValidator.validate s n = .ok errs →
      ∀ e ∈ errs, e.code ≠ "ELEMENT_MISMATCH".data) ∧
    (∀ (node : XmlNode) (sch : XsdSchema),
      XsdParser.buildSchema node = .ok sch → elementsKeyedByName sch = true) := by
  constructor
  · intro s n errs hkeyed hok e he
    unfold XmlValidator.validate at hok
    cases hroot : recordGet s.elements n.name with
    | none =>
      rw [hroot] at hok
      cases hok
      cases List.mem_singleton.mp he
      simp +decide
    | some d =>
      rw [hroot] at hok
      have hname : n.name = d.name := by
        have hmem := recordGet_mem hroot
        have h1 := List.all_eq_true.mp hkeyed _ hmem
        have h2 : d.name = n.name := by simpa using h1
        exact h2.symm
      exact validateElement_no_mismatch s n d 1 1 hname errs hok e he
  · intro node sch hb
    unfold XsdParser.buildSchema at hb
    split at hb
    · cases hb
    · cases hb
      rw [elementsKeyedByName, List.all_eq_true]
      suffices hfold : ∀ (cs : List XmlNode) (acc : XsdSchema),
          (∀ kv ∈ acc.elements, kv.2.name = kv.1) →
          ∀ kv ∈ (cs.foldl
            (fun sch child =>
              let ln := XsdParser.getLocalName child.name
              if ln = "element".data then
                let el := XsdParser.parseElement child
                { sch with elements := recordSet sch.elements el.name el }
              else if ln = "complexType".data then
                let ct := XsdParser.parseComplexType child
                { sch with complexTypes := recordSet sch.complexTypes ct.name ct }
              else if ln = "simpleType".data then
                let st := XsdParser.parseSimpleType child
                { sch with simpleTypes := recordSet sch.simpleTypes st.name st }
              else sch)
            acc).elements, kv.2.name = kv.1 by
        intro kv hkv
        simp only [decide_eq_true_eq]
        exact hfold node.children _ (by intro kv hkv; cases hkv) kv hkv
      intro cs
      induction cs with
      | nil => intro acc hacc kv hkv; exact hacc kv hkv
      | cons child rest ih =>
        intro acc hacc
        simp only [List.foldl_cons]
        apply ih
        dsimp only
        split
        · exact recordSet_keyed hacc
        · split
          · exact hacc
          · split
            · exact hacc
            · exact hacc

/-- Witness for C10 (i): at the fixture validation the single returned
diagnostic is not an `ELEMENT_MISMATCH`. -/
theorem c10_witness :
    (⟨1, 1, "Element ".data ++ sqc ++ "book".data ++ sqc ++
      " occurs ".data ++ natDigits 0 ++ " times but minimum is ".data ++
      jsNumToString (.rat 1), "MIN_OCCURS_VIOLATION".data⟩ :
      ValidationError).code ≠ "ELEMENT_MISMATCH".data := by
  refine c10_no_element_mismatch.1 libSchema emptyLib _ (by decide) ?_ _
    (List.mem_singleton.mpr rfl)
  simp +decide [XmlValidator.validate, XmlValidator.validateElement,
      XmlValidator.validateComplexContent, XmlValidator.validateParticles,
      XmlValidator.validateChildren, XmlValidator.validateAttributes,
      XmlValidator.validateSimpleContent, XmlValidator.validateSimpleTypeContent,
      XmlValidator.validateInlineContent, XmlValidator.validateRestrictions,
      XmlValidator.validateRestriction1, XmlValidator.occurrenceErrs,
      XmlValidator.minOccursError, XmlValidator.maxOccursError,
      XmlValidator.unexpectedErrs, XmlValidator.requiredAttrErrs,
      XmlValidator.presentAttrErrs, XmlValidator.textContentOf, recordGet,
      VRes.bind, XmlNode.name, XmlNode.attributes, XmlNode.children,
      XmlNode.text, XsdElement.name, XsdElement.type, XsdElement.minOccurs,
      XsdElement.maxOccurs, XsdElement.attributes, XsdElement.restrictions,
      libSchema, libraryDef, bookParticle, idAttr, emptyLib,
      XmlValidator.isBuiltInType, truthyOr, JsVal.toStr, JsNum.ltb, JsNum.gtb,
      natDigits, jsNumToString, XmlValidator.attrFalsy, sqc]

/-! ### C7 -/

/-- `advance` never changes the input string. -/
theorem advance_xml (s : XmlParser.PState) : (s.advance).xml = s.xml := by
  unfold XmlParser.PState.advance
  split
  · split <;> rfl
  · rfl

/-- Consuming one more character bumps the spec line count exactly on a
newline. -/
theorem lineOf_succ {xml : JStr} {p : Nat} {ch : Char} (h : xml[p]? = some ch) :
    lineOf xml (p + 1) = if ch = '\n' then lineOf xml p + 1 else lineOf xml p := by
  unfold lineOf
  rw [List.take_succ, h]
  by_cases hch : ch = '\n'
  · rw [if_pos hch]
    simp only [Option.toList_some, List.count_append, List.count_cons,
      List.count_nil, hch, beq_self_eq_true, if_true]
    omega
  · rw [if_neg hch]
    have hb : (ch == '\n') = false := beq_eq_false_iff_ne.mpr hch
    simp only [Option.toList_some, List.count_append, List.count_cons,
      List.count_nil, hb, Bool.false_eq_true, if_false]
    omega

/-- Consuming one more character resets the spec column on a newline and
increments it otherwise. -/
theorem colOf_succ {xml : JStr} {p : Nat} {ch : Char} (h : xml[p]? = some ch) :
    colOf xml (p + 1) = if ch = '\n' then 1 else colOf xml p + 1 := by
  unfold colOf
  rw [List.take_succ, h]
  simp only [Option.toList_some, List.reverse_append, List.reverse_cons,
    List.reverse_nil, List.nil_append, List.singleton_append,
    List.takeWhile_cons]
  by_cases hch : ch = '\n'
  · rw [if_pos hch]
    simp [hch]
  · rw [if_neg hch]
    simp [hch]

/-- The one advancing primitive maintains the cursor triple. -/
theorem cursorInv_advance {s : XmlParser.PState} (h : cursorInv s) :
    cursorInv s.advance := by
  obtain ⟨hl, hc⟩ := h
  unfold XmlParser.PState.advance
  split
  · rename_i hlt
    have hget : s.xml[s.position]? = some s.xml[s.position] :=
      List.getElem?_eq_getElem hlt
    split
    · rename_i hnl
      have hch : s.xml[s.position] = '\n' := by
        simp only [charAt, hget] at hnl
        injection hnl
      constructor
      · show s.line + 1 = lineOf s.xml (s.position + 1)
        rw [lineOf_succ hget, if_pos hch, hl]
      · show 1 = colOf s.xml (s.position + 1)
        rw [colOf_succ hget, if_pos hch]
    · rename_i hnl
      have hch : ¬ s.xml[s.position] = '\n' := by
        intro hc2
        apply hnl
        simp only [charAt, hget, hc2]
      constructor
      · show s.line = lineOf s.xml (s.position + 1)
        rw [lineOf_succ hget, if_neg hch, hl]
      · show s.column + 1 = colOf s.xml (s.position + 1)
        rw [colOf_succ hget, if_neg hch, hc]
  · exact ⟨hl, hc⟩

/-- `skipWhitespace` maintains the cursor triple and the input. -/
theorem skipWhitespace_pres : ∀ s : XmlParser.PState, cursorInv s →
    cursorInv (XmlParser.skipWhitespace s) ∧
    (XmlParser.skipWhitespace s).xml = s.xml := by
  intro s
  induction s using XmlParser.skipWhitespace.induct with
  | case1 s hcond ih =>
    intro h
    rw [XmlParser.skipWhitespace, dif_pos hcond]
    obtain ⟨h1, h2⟩ := ih (cursorInv_advance h)
    exact ⟨h1, h2.trans (advance_xml s)⟩
  | case2 s hcond =>
    intro h
    rw [XmlParser.skipWhitespace, dif_neg hcond]
    exact ⟨h, rfl⟩

/-- The `parseName` scan loop maintains the cursor triple and the input. -/
theorem parseNameLoop_pres : ∀ (s : XmlParser.PState) (name : JStr),
    cursorInv s →
    cursorInv (XmlParser.parseNameLoop s name).2 ∧
    (XmlParser.parseNameLoop s name).2.xml = s.xml := by
  intro s name
  induction s, name using XmlParser.parseNameLoop.induct with
  | case1 s name hlt hnc ih =>
    intro h
    rw [XmlParser.parseNameLoop, dif_pos hlt, if_pos hnc]
    obtain ⟨h1, h2⟩ := ih (cursorInv_advance h)
    exact ⟨h1, h2.trans (advance_xml s)⟩
  | case2 s name hlt hnc =>
    intro h
    rw [XmlParser.parseNameLoop, dif_pos hlt, if_neg hnc]
    exact ⟨h, rfl⟩
  | case3 s name hlt =>
    intro h
    rw [XmlParser.parseNameLoop, dif_neg hlt]
    exact ⟨h, rfl⟩

/-- `parseName` maintains the cursor triple and the input. -/
theorem parseName_pres {s : XmlParser.PState} (h : cursorInv s) :
    presInv s (XmlParser.parseName s) := by
  cases hr : XmlParser.parseName s with
  | div => exact trivial
  | ok a s' =>
    show cursorInv s' ∧ s'.xml = s.xml
    rw [XmlParser.parseName] at hr
    split at hr
    · cases hr
    · cases hnl : XmlParser.parseNameLoop s [] with
      | mk name s2 =>
        rw [hnl] at hr
        obtain ⟨h1, h2⟩ := parseNameLoop_pres s [] h
        rw [hnl] at h1 h2
        dsimp only at hr h1 h2
        split at hr
        · cases hr
        · cases hr
          exact ⟨h1, h2⟩
  | err m s' =>
    show cursorInv s' ∧ s'.xml = s.xml
    rw [XmlParser.parseName] at hr
    split at hr
    · cases hr
      exact ⟨h, rfl⟩
    · cases hnl : XmlParser.parseNameLoop s [] with
      | mk name s2 =>
        rw [hnl] at hr
        obtain ⟨h1, h2⟩ := parseNameLoop_pres s [] h
        rw [hnl] at h1 h2
        dsimp only at hr h1 h2
        split at hr
        · cases hr
          exact ⟨h1, h2⟩
        · cases hr

/-- Result-state transfer along an equal input string. -/
theorem presInv_mono {α : Type} {s s' : XmlParser.PState}
    {r : XmlParser.PRes α} (hx : s'.xml = s.xml) (h : presInv s' r) :
    presInv s r := by
  cases r with
  | ok a t => exact ⟨h.1, h.2.trans hx⟩
  | err m t => exact ⟨h.1, h.2.trans hx⟩
  | div => trivial

/-- `charAt` returns at most one character, so it never equals a longer
string. -/
theorem charAt_ne_of_two_le {xml : JStr} {i : Nat} {l : JStr}
    (h : 2 ≤ l.length) : charAt xml i ≠ l := by
  intro he
  have hlen := congrArg List.length he
  unfold charAt at hlen
  cases hg : xml[i]? <;> rw [hg] at hlen <;> simp at hlen <;> omega

/-- `peek` returns at most one character. -/
theorem peekAt_ne_of_two_le {s : XmlParser.PState} {off : Nat} {l : JStr}
    (h : 2 ≤ l.length) : s.peekAt off ≠ l :=
  charAt_ne_of_two_le h

/-- `skipComment` is the identity: both of its guards compare a single
peeked character against a longer literal. -/
theorem skipComment_eq (s : XmlParser.PState) : XmlParser.skipComment s = s := by
  unfold XmlParser.skipComment
  rw [if_neg (peekAt_ne_of_two_le (by decide)),
    if_neg (peekAt_ne_of_two_le (by decide))]

/-- The entity scan loop maintains the cursor triple and the input. -/
theorem parseEntityLoop_pres : ∀ (s : XmlParser.PState) (entity : JStr),
    cursorInv s →
    cursorInv (XmlParser.parseEntityLoop s entity).2 ∧
    (XmlParser.parseEntityLoop s entity).2.xml = s.xml := by
  intro s entity
  induction s, entity using XmlParser.parseEntityLoop.induct with
  | case1 s entity hcond ih =>
    intro h
    rw [XmlParser.parseEntityLoop, dif_pos hcond]
    obtain ⟨h1, h2⟩ := ih (cursorInv_advance h)
    exact ⟨h1, h2.trans (advance_xml s)⟩
  | case2 s entity hcond =>
    intro h
    rw [XmlParser.parseEntityLoop, dif_neg hcond]
    exact ⟨h, rfl⟩

/-- `parseEntity` maintains the cursor triple and the input. -/
theorem parseEntity_pres {s : XmlParser.PState} (h : cursorInv s) :
    presInv s (XmlParser.parseEntity s) := by
  rw [XmlParser.parseEntity]
  split
  · exact ⟨h, rfl⟩
  · cases hnl : XmlParser.parseEntityLoop s.advance [] with
    | mk entity s2 =>
      obtain ⟨h1, h2⟩ := parseEntityLoop_pres s.advance [] (cursorInv_advance h)
      rw [hnl] at h1 h2
      dsimp only at h1 h2 ⊢
      have hx2 : s2.xml = s.xml := h2.trans (advance_xml s)
      split
      · exact ⟨h1, hx2⟩
      · exact ⟨cursorInv_advance h1, (advance_xml s2).trans hx2⟩

/-- The attribute-value scan loop maintains the cursor triple and the
input. -/
theorem parseAttrValLoop_pres : ∀ (fuel : Nat) (quote : JStr)
    (s : XmlParser.PState) (value : JStr), cursorInv s →
    presInv s (XmlParser.parseAttrValLoop fuel quote s value) := by
  intro fuel
  induction fuel with
  | zero =>
    intro quote s value h
    rw [XmlParser.parseAttrValLoop]
    trivial
  | succ fuel ih =>
    intro quote s value h
    rw [XmlParser.parseAttrValLoop]
    split
    · split
      · cases hpe : XmlParser.parseEntity s with
        | ok e s' =>
          have hp := parseEntity_pres h
          rw [hpe] at hp
          exact presInv_mono hp.2 (ih quote s' (value ++ e) hp.1)
        | err m s' =>
          have hp := parseEntity_pres h
          rw [hpe] at hp
          exact hp
        | div => trivial
      · exact presInv_mono (advance_xml s)
          (ih quote s.advance (value ++ s.curr) (cursorInv_advance h))
    · exact ⟨h, rfl⟩

/-- `parseAttributeValue` maintains the cursor triple and the input. -/
theorem parseAttributeValue_pres (fuel : Nat) {s : XmlParser.PState}
    (h : cursorInv s) : presInv s (XmlParser.parseAttributeValue fuel s) := by
  rw [XmlParser.parseAttributeValue]
  dsimp only
  split
  · exact ⟨h, rfl⟩
  · cases hl : XmlParser.parseAttrValLoop fuel s.curr s.advance [] with
    | ok value s2 =>
      have hp := parseAttrValLoop_pres fuel s.curr s.advance []
        (cursorInv_advance h)
      rw [hl] at hp
      have hx : s2.xml = s.xml := hp.2.trans (advance_xml s)
      dsimp only
      split
      · exact ⟨hp.1, hx⟩
      · exact ⟨cursorInv_advance hp.1, (advance_xml s2).trans hx⟩
    | err m s2 =>
      have hp := parseAttrValLoop_pres fuel s.curr s.advance []
        (cursorInv_advance h)
      rw [hl] at hp
      exact ⟨hp.1, hp.2.trans (advance_xml s)⟩
    | div => trivial

/-- `parseAttributes` maintains the cursor triple and the input. -/
theorem parseAttributes_pres : ∀ (fuel : Nat) (s : XmlParser.PState)
    (attributes : List (JStr × JStr)), cursorInv s →
    presInv s (XmlParser.parseAttributes fuel s attributes) := by
  intro fuel
  induction fuel with
  | zero =>
    intro s attrs h
    rw [XmlParser.parseAttributes]
    trivial
  | succ fuel ih =>
    intro s attrs h
    rw [XmlParser.parseAttributes]
    split
    · obtain ⟨hw1, hw2⟩ := skipWhitespace_pres s h
      dsimp only
      split
      · exact ⟨hw1, hw2⟩
      · cases hpn : XmlParser.parseName (XmlParser.skipWhitespace s) with
        | err m s' =>
          have hp := parseName_pres hw1
          rw [hpn] at hp
          exact presInv_mono hw2 hp
        | div => trivial
        | ok name s2 =>
          have hp := parseName_pres hw1
          rw [hpn] at hp
          have hx2 : s2.xml = s.xml := hp.2.trans hw2
          obtain ⟨hv1, hv2⟩ := skipWhitespace_pres s2 hp.1
          dsimp only
          split
          · exact ⟨hv1, hv2.trans hx2⟩
          · obtain ⟨hu1, hu2⟩ := skipWhitespace_pres
              (XmlParser.skipWhitespace s2).advance (cursorInv_advance hv1)
            have hx4 : (XmlParser.skipWhitespace
                (XmlParser.skipWhitespace s2).advance).xml = s.xml :=
              hu2.trans ((advance_xml _).trans (hv2.trans hx2))
            cases hav : XmlParser.parseAttributeValue fuel
                (XmlParser.skipWhitespace (XmlParser.skipWhitespace s2).advance) with
            | err m s' =>
              have hq := parseAttributeValue_pres fuel hu1
              rw [hav] at hq
              exact presInv_mono hx4 hq
            | div => trivial
            | ok value s5 =>
              have hq := parseAttributeValue_pres fuel hu1
              rw [hav] at hq
              exact presInv_mono (hq.2.trans hx4)
                (ih s5 (recordSet attrs name value) hq.1)
    · exact ⟨h, rfl⟩

/-- `parseEndTag` maintains the cursor triple and the input. -/
theorem parseEndTag_pres (expectedName : JStr) {s : XmlParser.PState}
    (h : cursorInv s) : presInv s (XmlParser.parseEndTag expectedName s) := by
  rw [XmlParser.parseEndTag]
  split
  · cases hpn : XmlParser.parseName s.advance.advance with
    | err m s' =>
      have hp := parseName_pres (cursorInv_advance (cursorInv_advance h))
      rw [hpn] at hp
      exact presInv_mono ((advance_xml _).trans (advance_xml s)) hp
    | div => trivial
    | ok name s2 =>
      have hp := parseName_pres (cursorInv_advance (cursorInv_advance h))
      rw [hpn] at hp
      have hx2 : s2.xml = s.xml :=
        hp.2.trans ((advance_xml _).trans (advance_xml s))
      dsimp only
      split
      · exact ⟨hp.1, hx2⟩
      · obtain ⟨hw1, hw2⟩ := skipWhitespace_pres s2 hp.1
        split
        · exact ⟨hw1, hw2.trans hx2⟩
        · exact ⟨cursorInv_advance hw1, (advance_xml _).trans (hw2.trans hx2)⟩
  · exact ⟨h, rfl⟩

/-- `finishElement` maintains the cursor triple and the input. -/
theorem finishElement_pres {name : JStr} {attributes : List (JStr × JStr)}
    {children : List XmlNode} {text : JStr} {s : XmlParser.PState}
    (h : cursorInv s) :
    presInv s (XmlParser.finishElement name attributes children text s) := by
  rw [XmlParser.finishElement]
  cases het : XmlParser.parseEndTag name s with
  | ok a s' =>
    have hp := parseEndTag_pres name h
    rw [het] at hp
    exact hp
  | err m s' =>
    have hp := parseEndTag_pres name h
    rw [het] at hp
    exact hp
  | div => trivial

/-- The `skipDeclaration` scan loop maintains the cursor triple and the
input. -/
theorem skipDeclarationLoop_pres : ∀ s : XmlParser.PState, cursorInv s →
    cursorInv (XmlParser.skipDeclarationLoop s) ∧
    (XmlParser.skipDeclarationLoop s).xml = s.xml := by
  intro s
  induction s using XmlParser.skipDeclarationLoop.induct with
  | case1 s hcond ih =>
    intro h
    rw [XmlParser.skipDeclarationLoop, dif_pos hcond]
    obtain ⟨h1, h2⟩ := ih (cursorInv_advance h)
    exact ⟨h1, h2.trans (advance_xml s)⟩
  | case2 s hcond =>
    intro h
    rw [XmlParser.skipDeclarationLoop, dif_neg hcond]
    exact ⟨h, rfl⟩

/-- Extending a cursor-preserving state by one `advance`. -/
theorem cursorStep {s : XmlParser.PState} {t : JStr}
    (h : cursorInv s ∧ s.xml = t) :
    cursorInv s.advance ∧ s.advance.xml = t :=
  ⟨cursorInv_advance h.1, (advance_xml s).trans h.2⟩

/-- `skipDeclaration` maintains the cursor triple and the input. -/
theorem skipDeclaration_pres {s : XmlParser.PState} (h : cursorInv s) :
    cursorInv (XmlParser.skipDeclaration s) ∧
    (XmlParser.skipDeclaration s).xml = s.xml := by
  have base := skipDeclarationLoop_pres s h
  rw [XmlParser.skipDeclaration]
  by_cases h1 : (XmlParser.skipDeclarationLoop s).curr = ['?']
  · rw [if_pos h1]
    by_cases h2 : (XmlParser.skipDeclarationLoop s).advance.curr = ['>']
    · rw [if_pos h2]
      exact cursorStep (cursorStep base)
    · rw [if_neg h2]
      exact cursorStep base
  · rw [if_neg h1]
    by_cases h2 : (XmlParser.skipDeclarationLoop s).curr = ['>']
    · rw [if_pos h2]
      exact cursorStep base
    · rw [if_neg h2]
      exact base

/-- `skipProcessingInstruction` maintains the cursor triple and the
input. -/
theorem skipProcessingInstruction_pres : ∀ s : XmlParser.PState,
    cursorInv s → cursorInv (XmlParser.skipProcessingInstruction s) ∧
    (XmlParser.skipProcessingInstruction s).xml = s.xml := by
  intro s
  induction s using XmlParser.skipProcessingInstruction.induct with
  | case1 s h1 h2 =>
    intro h
    rw [XmlParser.skipProcessingInstruction, dif_pos h1, if_pos h2]
    exact cursorStep (cursorStep ⟨h, rfl⟩)
  | case2 s h1 h2 ih =>
    intro h
    rw [XmlParser.skipProcessingInstruction, dif_pos h1, if_neg h2]
    obtain ⟨a, b⟩ := ih (cursorInv_advance h)
    exact ⟨a, b.trans (advance_xml s)⟩
  | case3 s h1 =>
    intro h
    rw [XmlParser.skipProcessingInstruction, dif_neg h1]
    exact ⟨h, rfl⟩

/-- The preamble loop maintains the cursor triple and the input whenever
it terminates. -/
theorem parsePreambleLoop_pres : ∀ (fuel : Nat) (s s' : XmlParser.PState),
    cursorInv s → XmlParser.parsePreambleLoop fuel s = some s' →
    cursorInv s' ∧ s'.xml = s.xml := by
  intro fuel
  induction fuel with
  | zero =>
    intro s s' h he
    rw [XmlParser.parsePreambleLoop] at he
    cases he
  | succ fuel ih =>
    intro s s' h he
    rw [XmlParser.parsePreambleLoop] at he
    split at he
    · split at he
      · rw [skipComment_eq] at he
        obtain ⟨hw1, hw2⟩ := skipWhitespace_pres s h
        obtain ⟨a, b⟩ := ih _ s' hw1 he
        exact ⟨a, b.trans hw2⟩
      · split at he
        · obtain ⟨hp1, hp2⟩ := skipProcessingInstruction_pres s h
          obtain ⟨hw1, hw2⟩ := skipWhitespace_pres _ hp1
          obtain ⟨a, b⟩ := ih _ s' hw1 he
          exact ⟨a, b.trans (hw2.trans hp2)⟩
        · cases he
          exact ⟨h, rfl⟩
    · cases he
      exact ⟨h, rfl⟩

/-- `parseElement` and its content loop maintain the cursor triple and
the input, at every fuel. -/
theorem parseElement_pres : ∀ fuel : Nat,
    (∀ s : XmlParser.PState, cursorInv s →
      presInv s (XmlParser.parseElement fuel s)) ∧
    (∀ (name : JStr) (attributes : List (JStr × JStr))
      (children : List XmlNode) (text : JStr) (s : XmlParser.PState),
      cursorInv s →
      presInv s (XmlParser.parseElementContent fuel name attributes children text s)) := by
  intro fuel
  induction fuel with
  | zero =>
    refine ⟨fun s h => ?_, fun name attrs cs t s h => ?_⟩
    · rw [XmlParser.parseElement]
      trivial
    · rw [XmlParser.parseElementContent]
      trivial
  | succ fuel ih =>
    refine ⟨fun s h => ?_, fun name attrs cs t s h => ?_⟩
    · rw [XmlParser.parseElement]
      split
      · exact ⟨h, rfl⟩
      · dsimp only
        split
        · exact ⟨cursorInv_advance h, advance_xml s⟩
        · cases hpn : XmlParser.parseName s.advance with
          | err m s2 =>
            have hp := parseName_pres (cursorInv_advance h)
            rw [hpn] at hp
            exact presInv_mono (advance_xml s) hp
          | div => trivial
          | ok name s2 =>
            dsimp only
            have hp := parseName_pres (cursorInv_advance h)
            rw [hpn] at hp
            have hx2 : s2.xml = s.xml := hp.2.trans (advance_xml s)
            cases hpa : XmlParser.parseAttributes fuel s2 [] with
            | err m s3 =>
              have hq := parseAttributes_pres fuel s2 [] hp.1
              rw [hpa] at hq
              exact presInv_mono hx2 hq
            | div => trivial
            | ok attributes s3 =>
              dsimp only
              have hq := parseAttributes_pres fuel s2 [] hp.1
              rw [hpa] at hq
              have hx3 : s3.xml = s.xml := hq.2.trans hx2
              obtain ⟨hw1, hw2⟩ := skipWhitespace_pres s3 hq.1
              have hx4 : (XmlParser.skipWhitespace s3).xml = s.xml := hw2.trans hx3
              split
              · exact ⟨cursorInv_advance (cursorInv_advance hw1),
                  (advance_xml _).trans ((advance_xml _).trans hx4)⟩
              · split
                · exact ⟨hw1, hx4⟩
                · exact presInv_mono ((advance_xml _).trans hx4)
                    (ih.2 name attributes [] [] _ (cursorInv_advance hw1))
    · rw [XmlParser.parseElementContent]
      split
      · dsimp only
        obtain ⟨hw1, hw2⟩ := skipWhitespace_pres s h
        split
        · split
          · exact presInv_mono hw2 (finishElement_pres hw1)
          · cases hpe : XmlParser.parseElement fuel (XmlParser.skipWhitespace s) with
            | err m s2 =>
              have hp := ih.1 _ hw1
              rw [hpe] at hp
              exact presInv_mono hw2 hp
            | div => trivial
            | ok child s2 =>
              have hp := ih.1 _ hw1
              rw [hpe] at hp
              exact presInv_mono (hp.2.trans hw2) (ih.2 name attrs _ _ s2 hp.1)
        · exact presInv_mono ((advance_xml _).trans hw2)
            (ih.2 name attrs cs _ _ (cursorInv_advance hw1))
      · exact finishElement_pres h

/-- On every failing run, the error state carries the original input and
a line/column pair that is the true line/column of its offset. -/
theorem parseRun_err_pos : ∀ (fuel : Nat) (xml m : JStr)
    (s' : XmlParser.PState), XmlParser.parseRun fuel xml = .err m s' →
    s'.xml = xml ∧ s'.line = lineOf xml s'.position ∧
    s'.column = colOf xml s'.position := by
  intro fuel xml m s' he
  rw [XmlParser.parseRun] at he
  have h0 : cursorInv (⟨xml, 0, 1, 1⟩ : XmlParser.PState) := by
    constructor <;> simp [lineOf, colOf, XmlParser.PState.curr]
  obtain ⟨hw1, hw2⟩ := skipWhitespace_pres (⟨xml, 0, 1, 1⟩ : XmlParser.PState) h0
  by_cases hc : (XmlParser.skipWhitespace
      (⟨xml, 0, 1, 1⟩ : XmlParser.PState)).peekAt 5 = "<?xml".data
  · rw [if_pos hc] at he
    obtain ⟨hd1, hd2⟩ := skipDeclaration_pres hw1
    obtain ⟨hv1, hv2⟩ := skipWhitespace_pres _ hd1
    cases hpl : XmlParser.parsePreambleLoop fuel (XmlParser.skipWhitespace
        (XmlParser.skipDeclaration (XmlParser.skipWhitespace
        (⟨xml, 0, 1, 1⟩ : XmlParser.PState)))) with
    | none =>
      rw [hpl] at he
      cases he
    | some s3 =>
      rw [hpl] at he
      dsimp only at he
      obtain ⟨h3, hx3⟩ := parsePreambleLoop_pres fuel _ s3 hv1 hpl
      have hp := (parseElement_pres fuel).1 s3 h3
      rw [he] at hp
      have hxml : s'.xml = xml :=
        hp.2.trans (hx3.trans (hv2.trans (hd2.trans hw2)))
      have hl := hp.1.1
      have hc2 := hp.1.2
      rw [hxml] at hl hc2
      exact ⟨hxml, hl, hc2⟩
  · rw [if_neg hc] at he
    cases hpl : XmlParser.parsePreambleLoop fuel (XmlParser.skipWhitespace
        (⟨xml, 0, 1, 1⟩ : XmlParser.PState)) with
    | none =>
      rw [hpl] at he
      cases he
    | some s3 =>
      rw [hpl] at he
      dsimp only at he
      obtain ⟨h3, hx3⟩ := parsePreambleLoop_pres fuel _ s3 hw1 hpl
      have hp := (parseElement_pres fuel).1 s3 h3
      rw [he] at hp
      have hxml : s'.xml = xml := hp.2.trans (hx3.trans hw2)
      have hl := hp.1.1
      have hc2 := hp.1.2
      rw [hxml] at hl hc2
      exact ⟨hxml, hl, hc2⟩

/-! ### C7 -/

/-- C7: on every failing run the diagnostic's position is the true cursor
position over the consumed prefix: the thrown state still carries the
whole input, its line is 1 plus the number of newlines before its offset,
its column is the number of characters since the last newline plus 1, and
the single `PARSE_ERROR` diagnostic issued by `parse` carries exactly this
line/column pair. -/
theorem c7_error_position_correct (fuel : Nat) (xml m : JStr)
    (s' : XmlParser.PState) (he : XmlParser.parseRun fuel xml = .err m s') :
    s'.xml = xml ∧ s'.line = lineOf xml s'.position ∧
    s'.column = colOf xml s'.position ∧
    XmlParser.parseFuel fuel xml =
      some (none, [⟨lineOf xml s'.position, colOf xml s'.position, m,
        "PARSE_ERROR".data⟩]) := by
  obtain ⟨hx, hl, hc⟩ := parseRun_err_pos fuel xml m s' he
  refine ⟨hx, hl, hc, ?_⟩
  unfold XmlParser.parseFuel
  rw [he, ← hl, ← hc]

/-- Witness for C7: the mismatched end tag of `"<a>\n</b>"` throws at
offset 7, which lies on line 2 column 4, and the diagnostic says so. -/
theorem c7_witness :
    (⟨"<a>\n</b>".data, 7, 2, 4⟩ : XmlParser.PState).xml = "<a>\n</b>".data ∧
    (2 : Nat) = lineOf "<a>\n</b>".data 7 ∧
    (4 : Nat) = colOf "<a>\n</b>".data 7 ∧
    XmlParser.parseFuel 24 "<a>\n</b>".data =
      some (none, [⟨lineOf "<a>\n</b>".data 7, colOf "<a>\n</b>".data 7,
        "End tag ".data ++ sqc ++ "b".data ++ sqc ++
          " does not match start tag ".data ++ sqc ++ "a".data ++ sqc,
        "PARSE_ERROR".data⟩]) :=
  c7_error_position_correct 24 "<a>\n</b>".data
    ("End tag ".data ++ sqc ++ "b".data ++ sqc ++
      " does not match start tag ".data ++ sqc ++ "a".data ++ sqc)
    ⟨"<a>\n</b>".data, 7, 2, 4⟩
    (by
      simp +decide [XmlParser.parseRun, XmlParser.parsePreambleLoop,
        XmlParser.parseElement, XmlParser.parseElementContent,
        XmlParser.parseAttributes, XmlParser.parseAttributeValue,
        XmlParser.parseAttrValLoop, XmlParser.parseName,
        XmlParser.parseNameLoop, XmlParser.parseEntity,
        XmlParser.parseEntityLoop, XmlParser.parseEndTag,
        XmlParser.finishElement, XmlParser.buildElementNode,
        XmlParser.skipWhitespace, XmlParser.skipDeclaration,
        XmlParser.skipDeclarationLoop, XmlParser.skipComment,
        XmlParser.skipXmlComment, XmlParser.skipXmlCommentLoop,
        XmlParser.skipDoctype, XmlParser.skipDoctypeLoop,
        XmlParser.skipProcessingInstruction, XmlParser.PState.advance,
        XmlParser.PState.curr, XmlParser.PState.peekAt, charAt,
        XmlParser.isWhitespaceS, XmlParser.isNameStartCharS,
        XmlParser.isNameCharS, jsTrim, XmlParser.decodeEntity, recordSet, sqc])

/-- `charAt` beyond a prefix reads from the suffix. -/
theorem charAt_shift (u t : JStr) (k : Nat) :
    charAt (u ++ t) (u.length + k) = charAt t k := by
  unfold charAt
  rw [List.getElem?_append_right (by omega), Nat.add_sub_cancel_left]

/-- `charAt` at the end of a prefix reads the suffix's head. -/
theorem charAt_shift0 (u t : JStr) :
    charAt (u ++ t) u.length = charAt t 0 := by
  have h := charAt_shift u t 0
  simpa using h

/-- `charAt` within a prefix reads from the prefix. -/
theorem charAt_in_left (u t : JStr) (k : Nat) (h : k < u.length) :
    charAt (u ++ t) k = charAt u k := by
  unfold charAt
  rw [List.getElem?_append_left h]

/-- `skipWhitespace` does nothing on a non-whitespace character. -/
theorem skipWhitespace_id {s : XmlParser.PState}
    (h : XmlParser.isWhitespaceS s.curr = false) :
    XmlParser.skipWhitespace s = s := by
  rw [XmlParser.skipWhitespace, dif_neg]
  intro hc
  rw [h] at hc
  exact Bool.false_ne_true hc.2

/-- `dropWhile` on a list none of whose elements satisfies the predicate. -/
theorem dropWhile_eq_self_of {p : Char → Bool} : ∀ {l : JStr},
    (∀ c ∈ l, p c = false) → l.dropWhile p = l := by
  intro l h
  cases l with
  | nil => rfl
  | cons a l => simp [List.dropWhile, h a (List.mem_cons_self a l)]

/-- `trim` does nothing on a string with no trimmable character. -/
theorem jsTrim_id {l : JStr} (h : ∀ c ∈ l, jsTrimmable c = false) :
    jsTrim l = l := by
  unfold jsTrim
  rw [dropWhile_eq_self_of h, dropWhile_eq_self_of (by
    intro c hc
    exact h c (List.mem_reverse.mp hc)), List.reverse_reverse]

/-- A non-trimmable character is not parser whitespace. -/
theorem isWhitespaceS_of_not_trimmable {c : Char} (h : jsTrimmable c = false) :
    XmlParser.isWhitespaceS [c] = false := by
  simp only [jsTrimmable, Bool.or_eq_false_iff, decide_eq_false_iff_not] at h
  simp only [XmlParser.isWhitespaceS, Bool.or_eq_false_iff,
    decide_eq_false_iff_not]
  refine ⟨⟨⟨?_, ?_⟩, ?_⟩, ?_⟩ <;> intro he <;> injection he with he' <;>
    simp [he'] at h

/-- Concrete reads of the closing-tag suffix. -/
theorem charAt_endtag0 : charAt "</a>".data 0 = ['<'] := rfl

theorem charAt_endtag1 : charAt "</a>".data 1 = ['/'] := rfl

theorem charAt_endtag2 : charAt "</a>".data 2 = ['a'] := rfl

theorem charAt_endtag3 : charAt "</a>".data 3 = ['>'] := rfl

/-- Reaching the closing tag `</a>`: the content loop finishes the
element with the accumulated children and text. -/
theorem contentEnd (fuel : Nat) (attrs : List (JStr × JStr))
    (children : List XmlNode) (text : JStr) (ln co : Nat) (u : JStr) :
    XmlParser.parseElementContent (fuel + 1) "a".data attrs children text
      ⟨u ++ "</a>".data, u.length, ln, co⟩ =
    .ok (XmlParser.buildElementNode "a".data attrs children text)
      ⟨u ++ "</a>".data, u.length + 4, ln, co + 4⟩ := by
  simp +arith +decide [XmlParser.parseElementContent, XmlParser.finishElement,
    XmlParser.parseEndTag, XmlParser.parseName, XmlParser.parseNameLoop,
    XmlParser.skipWhitespace, XmlParser.PState.advance, XmlParser.PState.curr,
    XmlParser.PState.peekAt, charAt_shift, charAt_shift0, charAt_endtag0,
    charAt_endtag1, charAt_endtag2, charAt_endtag3, XmlParser.isWhitespaceS,
    XmlParser.isNameStartCharS, XmlParser.isNameCharS, List.length_append, sqc]

/-- The content loop consumes verbatim text: a run of non-whitespace,
non-`<` characters is appended to the pending text character by
character, with no entity decoding, until the closing tag finishes the
element. -/
theorem contentLoop : ∀ (r : JStr) (fuel : Nat)
    (attrs : List (JStr × JStr)) (children : List XmlNode) (text : JStr)
    (ln co : Nat) (u : JStr),
    (∀ c ∈ r, XmlParser.isWhitespaceS [c] = false ∧ c ≠ '<') →
    XmlParser.parseElementContent (fuel + r.length + 1) "a".data attrs
      children text ⟨u ++ (r ++ "</a>".data), u.length, ln, co⟩ =
    .ok (XmlParser.buildElementNode "a".data attrs children (text ++ r))
      ⟨u ++ (r ++ "</a>".data), u.length + r.length + 4, ln,
        co + r.length + 4⟩ := by
  intro r
  induction r with
  | nil =>
    intro fuel attrs children text ln co u _
    simp only [List.length_nil, List.nil_append, Nat.add_zero,
      List.append_nil]
    exact contentEnd fuel attrs children text ln co u
  | cons c r ih =>
    intro fuel attrs children text ln co u hchars
    obtain ⟨hws, hlt⟩ := hchars c (List.mem_cons_self c r)
    have hrest : ∀ x ∈ r, XmlParser.isWhitespaceS [x] = false ∧ x ≠ '<' :=
      fun x hx => hchars x (List.mem_cons_of_mem c hx)
    have hcn : c ≠ '\n' := by
      intro he
      subst he
      simp [XmlParser.isWhitespaceS] at hws
    rw [List.length_cons, show fuel + (r.length + 1) + 1 =
      (fuel + r.length + 1) + 1 by omega]
    rw [XmlParser.parseElementContent]
    have hpos : (⟨u ++ (c :: r ++ "</a>".data), u.length, ln, co⟩ :
        XmlParser.PState).position <
        (⟨u ++ (c :: r ++ "</a>".data), u.length, ln, co⟩ :
        XmlParser.PState).xml.length := by
      simp +arith
    rw [if_pos hpos]
    have hcurr : (⟨u ++ (c :: r ++ "</a>".data), u.length, ln, co⟩ :
        XmlParser.PState).curr = [c] := by
      simp only [XmlParser.PState.curr]
      rw [charAt_shift0]
      simp [charAt]
    have hsw : XmlParser.skipWhitespace
        (⟨u ++ (c :: r ++ "</a>".data), u.length, ln, co⟩ :
          XmlParser.PState) =
        ⟨u ++ (c :: r ++ "</a>".data), u.length, ln, co⟩ :=
      skipWhitespace_id (by rw [hcurr]; exact hws)
    rw [hsw]
    dsimp only
    rw [hcurr]
    rw [if_neg (by simp [hlt])]
    have hadv : (⟨u ++ (c :: r ++ "</a>".data), u.length, ln, co⟩ :
        XmlParser.PState).advance =
        ⟨u ++ (c :: r ++ "</a>".data), u.length + 1, ln, co + 1⟩ := by
      rw [XmlParser.PState.advance, if_pos hpos, if_neg]
      rw [show charAt (u ++ (c :: r ++ "</a>".data)) u.length = [c] from by
        rw [charAt_shift0]; simp [charAt]]
      simp [hcn]
    rw [hadv]
    have hx : u ++ (c :: r ++ "</a>".data) =
        (u ++ [c]) ++ (r ++ "</a>".data) := by simp
    rw [hx, show u.length + 1 = (u ++ [c]).length by simp]
    rw [ih fuel attrs children (text ++ [c]) ln (co + 1) (u ++ [c]) hrest]
    simp +arith

/-- A single peeked character never equals the five-character probe
`"<?xml"`. -/
theorem charAt_ne_xmldecl (xml : JStr) (i : Nat) :
    (charAt xml i = "<?xml".data) = False :=
  eq_false (charAt_ne_of_two_le (by decide))

/-- The preamble loop passes an input starting with `<a` through
unchanged. -/
theorem preamble_header (rest : JStr) (fuel : Nat) :
    XmlParser.parsePreambleLoop (fuel + 1) ⟨"<a>".data ++ rest, 0, 1, 1⟩ =
      some ⟨"<a>".data ++ rest, 0, 1, 1⟩ := by
  have h0 : charAt ('<' :: 'a' :: '>' :: rest) 0 = ['<'] := by simp [charAt]
  have h1 : charAt ('<' :: 'a' :: '>' :: rest) 1 = "a".data := by
    simp +decide [charAt]
  simp +decide [XmlParser.parsePreambleLoop, XmlParser.PState.curr,
    XmlParser.PState.peekAt, h0, h1]

/-- `parseElement` on the header `<a>`: it consumes the three characters
and enters the content loop at offset 3 (line 1, column 4). -/
theorem parseElement_header (rest : JStr) (fuel : Nat) :
    XmlParser.parseElement ((fuel + 1) + 1) ⟨"<a>".data ++ rest, 0, 1, 1⟩ =
    XmlParser.parseElementContent (fuel + 1) "a".data [] [] []
      ⟨"<a>".data ++ rest, 3, 1, 4⟩ := by
  have h0 : charAt ('<' :: 'a' :: '>' :: rest) 0 = ['<'] := by simp [charAt]
  have h1 : charAt ('<' :: 'a' :: '>' :: rest) 1 = "a".data := by
    simp +decide [charAt]
  have h2 : charAt ('<' :: 'a' :: '>' :: rest) 2 = ['>'] := by simp [charAt]
  simp +decide [XmlParser.parseElement, XmlParser.parseName,
    XmlParser.parseNameLoop, XmlParser.parseAttributes,
    XmlParser.skipWhitespace, XmlParser.PState.advance, XmlParser.PState.curr,
    XmlParser.PState.peekAt, XmlParser.isWhitespaceS,
    XmlParser.isNameStartCharS, XmlParser.isNameCharS, h0, h1, h2]

/-- `parseRun` on `<a>` followed by anything: straight into the content
loop. -/
theorem parseRun_header (rest : JStr) (fuel : Nat) :
    XmlParser.parseRun ((fuel + 1) + 1) ("<a>".data ++ rest) =
    XmlParser.parseElementContent (fuel + 1) "a".data [] [] []
      ⟨"<a>".data ++ rest, 3, 1, 4⟩ := by
  have h0 : charAt ("<a>".data ++ rest) 0 = ['<'] := by
    rw [charAt_in_left _ _ 0 (by decide)]
    decide
  have hsw0 : XmlParser.skipWhitespace ⟨"<a>".data ++ rest, 0, 1, 1⟩ =
      ⟨"<a>".data ++ rest, 0, 1, 1⟩ :=
    skipWhitespace_id (by
      simp only [XmlParser.PState.curr]
      rw [h0]
      decide)
  rw [XmlParser.parseRun]
  rw [hsw0, if_neg (peekAt_ne_of_two_le (by decide)),
    preamble_header rest (fuel + 1)]
  dsimp only
  exact parseElement_header rest fuel

/-- Verbatim text: parsing `<a>` followed by a run of plain characters
and `</a>` yields a single element whose text is exactly that run,
undecoded. -/
theorem parse_text_verbatim (raw : JStr) (hne : raw ≠ [])
    (hchars : ∀ c ∈ raw, jsTrimmable c = false ∧ c ≠ '<') :
    XmlParser.parse ("<a>".data ++ (raw ++ "</a>".data)) =
      some (some (.mk "a".data [] [] (some raw) none), []) := by
  have hlen : ("<a>".data ++ (raw ++ "</a>".data)).length = raw.length + 7 := by
    rw [List.length_append, List.length_append,
      show (("<a>".data : JStr)).length = 3 from by decide,
      show (("</a>".data : JStr)).length = 4 from by decide]
    omega
  have hnode : XmlParser.buildElementNode "a".data [] [] raw =
      .mk "a".data [] [] (some raw) none := by
    rw [XmlParser.buildElementNode, if_pos]
    · rw [jsTrim_id (fun c hc => (hchars c hc).1)]
    · exact ⟨by rw [jsTrim_id (fun c hc => (hchars c hc).1)]; exact hne, rfl⟩
  have hloop := contentLoop raw (raw.length + 20) [] [] [] 1 4 "<a>".data
    (fun c hc => ⟨isWhitespaceS_of_not_trimmable (hchars c hc).1,
      (hchars c hc).2⟩)
  rw [show (("<a>".data : JStr)).length = 3 from by decide] at hloop
  simp only [List.nil_append] at hloop
  rw [hnode] at hloop
  rw [XmlParser.parse,
    show 2 * ("<a>".data ++ (raw ++ "</a>".data)).length + 8 =
      ((raw.length + 20) + raw.length + 1) + 1 by rw [hlen]; omega]
  rw [XmlParser.parseFuel,
    parseRun_header (raw ++ "</a>".data) ((raw.length + 20) + raw.length),
    hloop]

/-- C9: entity decoding applies only inside quoted attribute values.
(i) Character data between tags is accumulated verbatim: for every
non-empty run of plain (non-whitespace, non-`<`) characters, the parsed
element's text is exactly that run, undecoded.  (ii) In particular
`parse("<a>&amp;</a>")` stores the literal `"&amp;"`, not the decoded
`"&"`.  (iii) By contrast an `&amp;` inside a quoted attribute value is
decoded to `"&"`. -/
theorem c9_text_entities_literal :
    (∀ raw : JStr, raw ≠ [] →
      (∀ c ∈ raw, jsTrimmable c = false ∧ c ≠ '<') →
      XmlParser.parse ("<a>".data ++ (raw ++ "</a>".data)) =
        some (some (.mk "a".data [] [] (some raw) none), [])) ∧
    (XmlParser.parse "<a>&amp;</a>".data =
      some (some (.mk "a".data [] [] (some "&amp;".data) none), []) ∧
      "&amp;".data ≠ "&".data) ∧
    XmlParser.parse "<a b=\"&amp;\"/>".data =
      some (some (.mk "a".data [("b".data, "&".data)] [] none none), []) := by
  refine ⟨parse_text_verbatim, ⟨?_, by decide⟩, ?_⟩
  · have h := parse_text_verbatim "&amp;".data (by decide) (by decide)
    rw [show ("<a>".data ++ ("&amp;".data ++ "</a>".data) : JStr) =
      "<a>&amp;</a>".data from by decide] at h
    exact h
  · simp +decide [XmlParser.parse, XmlParser.parseFuel, XmlParser.parseRun,
      XmlParser.parsePreambleLoop, XmlParser.parseElement,
      XmlParser.parseElementContent, XmlParser.parseAttributes,
      XmlParser.parseAttributeValue, XmlParser.parseAttrValLoop,
      XmlParser.parseName, XmlParser.parseNameLoop, XmlParser.parseEntity,
      XmlParser.parseEntityLoop, XmlParser.parseEndTag,
      XmlParser.finishElement, XmlParser.buildElementNode,
      XmlParser.skipWhitespace, XmlParser.skipDeclaration,
      XmlParser.skipDeclarationLoop, XmlParser.skipComment,
      XmlParser.skipXmlComment, XmlParser.skipXmlCommentLoop,
      XmlParser.skipDoctype, XmlParser.skipDoctypeLoop,
      XmlParser.skipProcessingInstruction, XmlParser.PState.advance,
      XmlParser.PState.curr, XmlParser.PState.peekAt, charAt,
      XmlParser.isWhitespaceS, XmlParser.isNameStartCharS,
      XmlParser.isNameCharS, jsTrim, XmlParser.decodeEntity, recordSet, sqc]

/-- Witness for C9 (i): the concrete run `"x&y;z"` between the tags of
`<a>` survives verbatim, entity-looking sequence included. -/
theorem c9_witness :
    XmlParser.parse ("<a>".data ++ ("x&y;z".data ++ "</a>".data)) =
      some (some (.mk "a".data [] [] (some "x&y;z".data) none), []) :=
  c9_text_entities_literal.1 "x&y;z".data (by decide) (by decide)
